import Mathlib

/-!
Verification of the notice ingestion-classification-persistence pipeline.

This file gives a shallow embedding, in Lean 4, of the core pipeline code of
the `pilot_app` repository:

* `notam/services/persistence.py` — `get_hash`, `save_to_db`,
  `save_results_batch`, `truncate_all_notams`, `delete_notams_by_ids`,
  `parse_runway_id`, `_none_if_nullish`;
* `notam/services/analyser.py` — `analyze_many` and its inner `_one`
  retry loop;
* `notam/pipeline.py` — the two-pass section of `run_pipeline`;
* `notam/services/retry_failed.py` — `FailedNotamRetryService`;
* `notam/services/swim_consumer.py` — the micro-batch `flush_loop`;
* `notam/timeutils.py` — `parse_iso_to_utc` (abstracted, see below).

Python floats for durations are modelled as rationals (`ℚ`), machine-level
hashing (`hashlib.sha256`) is implemented from FIPS 180-4 over `Nat`,
database rows are records in lists, and the external classification service
is an oracle `Nat → Nat → AttemptRes β` (item index, attempt number).
-/

/-! ## Python string helpers

`str.strip()` with no argument removes leading/trailing whitespace.  We model
the ASCII whitespace characters (space, tab, newline, carriage return,
vertical tab, form feed); the repository only ever strips ASCII text.
-/

def pyIsSpace (c : Char) : Bool :=
  c == ' ' || c == '\t' || c == '\n' || c == '\r' || c == '\x0b' || c == '\x0c'

/-- Python `s.strip()`: drop whitespace from both ends. -/
def pyStrip (s : String) : String :=
  ⟨((s.data.dropWhile pyIsSpace).reverse.dropWhile pyIsSpace).reverse⟩

/-- Python `s.upper()` on ASCII letters (the repository upper-cases airport
codes, runway/taxiway identifiers and null-token checks, which are ASCII). -/
def pyUpperChar (c : Char) : Char :=
  if 'a' ≤ c ∧ c ≤ 'z' then Char.ofNat (c.toNat - 32) else c

def pyUpper (s : String) : String := ⟨s.data.map pyUpperChar⟩

/-- Python `int(s)` restricted to digit strings; signed or malformed input
raises there and returns `none` here (the only caller treats the two
identically). -/
def pyToNat? (s : String) : Option Nat :=
  if s.data ≠ [] ∧ s.data.all Char.isDigit then
    some (s.data.foldl (fun n c => n * 10 + (c.toNat - 48)) 0)
  else none

/-- UTF-8 encoding of a single character, as byte values (`encode("utf-8")`). -/
def utf8EncodeCharNat (c : Char) : List Nat :=
  let n := c.toNat
  if n < 0x80 then [n]
  else if n < 0x800 then
    [0xC0 ||| (n >>> 6), 0x80 ||| (n &&& 0x3F)]
  else if n < 0x10000 then
    [0xE0 ||| (n >>> 12), 0x80 ||| ((n >>> 6) &&& 0x3F), 0x80 ||| (n &&& 0x3F)]
  else
    [0xF0 ||| (n >>> 18), 0x80 ||| ((n >>> 12) &&& 0x3F),
     0x80 ||| ((n >>> 6) &&& 0x3F), 0x80 ||| (n &&& 0x3F)]

/-- UTF-8 bytes of a string. -/
def utf8Bytes (s : String) : List Nat :=
  s.data.foldr (fun c acc => utf8EncodeCharNat c ++ acc) []

/-! ## SHA-256 (FIPS 180-4), over `Nat` with explicit reduction mod 2^32

The round constants and initial hash values are *derived* (integer square and
cube roots of the first primes), exactly as the standard specifies, rather
than transcribed, to rule out transcription errors.
-/

def w32 : Nat := 4294967296

def add32 (a b : Nat) : Nat := (a + b) % w32

/-- Right-rotation of a 32-bit word (input assumed `< 2^32`). -/
def rotr32 (n x : Nat) : Nat :=
  (x >>> n) ||| ((x <<< (32 - n)) % w32)

def shaCh (x y z : Nat) : Nat := (x &&& y) ^^^ ((0xFFFFFFFF ^^^ x) &&& z)

def shaMaj (x y z : Nat) : Nat := (x &&& y) ^^^ (x &&& z) ^^^ (y &&& z)

def bigSigma0 (x : Nat) : Nat := rotr32 2 x ^^^ rotr32 13 x ^^^ rotr32 22 x

def bigSigma1 (x : Nat) : Nat := rotr32 6 x ^^^ rotr32 11 x ^^^ rotr32 25 x

def smallSigma0 (x : Nat) : Nat := rotr32 7 x ^^^ rotr32 18 x ^^^ (x >>> 3)

def smallSigma1 (x : Nat) : Nat := rotr32 17 x ^^^ rotr32 19 x ^^^ (x >>> 10)

def isPrimeNat (n : Nat) : Bool :=
  2 ≤ n && (((List.range n).drop 2).all fun d => n % d != 0)

/-- The first `k` primes (2, 3, 5, ...). -/
def firstPrimes (k : Nat) : List Nat :=
  ((List.range 400).filter isPrimeNat).take k

/-- Integer cube root by binary search over `bits` bits. -/
def cbrtAux (n : Nat) : Nat → Nat → Nat
  | 0, acc => acc
  | b + 1, acc =>
    let t := acc + 2 ^ b
    if t ^ 3 ≤ n then cbrtAux n b t else cbrtAux n b acc

def intCbrt (n : Nat) : Nat := cbrtAux n 44 0

/-- SHA-256 round constants: fractional parts of cube roots of the first 64
primes, `K i = floor(2^32 * frac(cbrt p_i))`. -/
def shaK : List Nat :=
  (firstPrimes 64).map fun p => intCbrt (p * 2 ^ 96) % w32

/-- SHA-256 initial hash: fractional parts of square roots of the first 8
primes. -/
def shaH0 : List Nat :=
  (firstPrimes 8).map fun p => Nat.sqrt (p * 2 ^ 64) % w32

/-- FIPS 180-4 message padding: append `0x80`, zeros to 56 mod 64, then the
bit length as 8 big-endian bytes. -/
def padMessage (msg : List Nat) : List Nat :=
  let L := msg.length
  let z := (119 - (L % 64)) % 64
  let lenBytes := [56, 48, 40, 32, 24, 16, 8, 0].map fun k => ((8 * L) >>> k) % 256
  msg ++ [0x80] ++ List.replicate z 0 ++ lenBytes

/-- Big-endian 32-bit words from bytes (length assumed divisible by 4). -/
def chunkWords : List Nat → List Nat
  | b0 :: b1 :: b2 :: b3 :: rest =>
    (((b0 * 256 + b1) * 256 + b2) * 256 + b3) :: chunkWords rest
  | _ => []

/-- 16-word blocks from a word list (length assumed divisible by 16). -/
def chunkBlocks : List Nat → List (List Nat)
  | w0 :: w1 :: w2 :: w3 :: w4 :: w5 :: w6 :: w7 ::
    w8 :: w9 :: w10 :: w11 :: w12 :: w13 :: w14 :: w15 :: rest =>
    [w0, w1, w2, w3, w4, w5, w6, w7, w8, w9, w10, w11, w12, w13, w14, w15]
      :: chunkBlocks rest
  | _ => []

/-- Message-schedule extension; `acc` holds the words in reverse order. -/
def scheduleAux : Nat → List Nat → List Nat
  | 0, acc => acc
  | n + 1, acc =>
    let w := add32 (add32 (smallSigma1 (acc.getD 1 0)) (acc.getD 6 0))
                   (add32 (smallSigma0 (acc.getD 14 0)) (acc.getD 15 0))
    scheduleAux n (w :: acc)

def schedule (block : List Nat) : List Nat :=
  (scheduleAux 48 block.reverse).reverse

structure Hash8 where
  a : Nat
  b : Nat
  c : Nat
  d : Nat
  e : Nat
  f : Nat
  g : Nat
  h : Nat
deriving DecidableEq

def compressStep (st : Hash8) (kw : Nat × Nat) : Hash8 :=
  let t1 := add32 (add32 (add32 st.h (bigSigma1 st.e))
                         (add32 (shaCh st.e st.f st.g) kw.1)) kw.2
  let t2 := add32 (bigSigma0 st.a) (shaMaj st.a st.b st.c)
  ⟨add32 t1 t2, st.a, st.b, st.c, add32 st.d t1, st.e, st.f, st.g⟩

def compressBlock (hv : List Nat) (block : List Nat) : List Nat :=
  let ws := schedule block
  let st0 : Hash8 := ⟨hv.getD 0 0, hv.getD 1 0, hv.getD 2 0, hv.getD 3 0,
                      hv.getD 4 0, hv.getD 5 0, hv.getD 6 0, hv.getD 7 0⟩
  let st := (shaK.zip ws).foldl compressStep st0
  [add32 (hv.getD 0 0) st.a, add32 (hv.getD 1 0) st.b,
   add32 (hv.getD 2 0) st.c, add32 (hv.getD 3 0) st.d,
   add32 (hv.getD 4 0) st.e, add32 (hv.getD 5 0) st.f,
   add32 (hv.getD 6 0) st.g, add32 (hv.getD 7 0) st.h]

def hexDigit (n : Nat) : Char :=
  if n < 10 then Char.ofNat (48 + n) else Char.ofNat (87 + n)

/-- A 32-bit word as 8 lowercase hex characters. -/
def toHex8 (w : Nat) : List Char :=
  (List.range 8).map fun i => hexDigit ((w >>> (28 - 4 * i)) % 16)

/-- SHA-256 of a byte list, as a lowercase hex string (`hexdigest()`). -/
def sha256hex (bytes : List Nat) : String :=
  let hv := (chunkBlocks (chunkWords (padMessage bytes))).foldl compressBlock shaH0
  ⟨hv.foldr (fun w acc => toHex8 w ++ acc) []⟩

/-- `persistence.get_hash` (and the identical `NotamRepository.get_hash`):
`sha256(f"{notam_number.strip()}|{icao_message.strip()}".encode("utf-8")).hexdigest()`. -/
def get_hash (notam_number icao_message : String) : String :=
  sha256hex (utf8Bytes (pyStrip notam_number ++ "|" ++ pyStrip icao_message))

/-! ## Classification dispatcher (`notam/services/analyser.py`)

`analyze_many` runs one task per input item via `asyncio.gather`.  Each task
(`_one`) loops: call the service under the current timeout; on a non-null
result return a success outcome; on `None`, timeout or exception compute the
error string, give up once `attempt >= retry_attempts`, otherwise sleep
`min(retry_backoff_max, retry_backoff_base * 2**attempt)` plus jitter,
escalate the timeout to `min(current_timeout * 2, timeout_sec * 5)` and retry.

The external service is an oracle giving the result of each attempt.  The
semaphore and the rate limiter only delay execution (they never change an
attempt's result), so outcomes do not depend on them; the accumulated backoff
sleep `sleep_total` is a lower bound on the elapsed wall time.  The random
jitter `random.uniform(0, 0.5)` is an oracle `jitter : Nat → ℚ`.
`current_timeout * 2` with `current_timeout = None` raises a `TypeError`
which escapes `_one` (it occurs outside the `try` block) and aborts the
whole `gather`; this is the `.error` case.
-/

/-- Result of one call to the classification service for one item. -/
inductive AttemptRes (β : Type) where
  | ok (r : β)
  | nores
  | timeout
  | exc (msg : String)
deriving DecidableEq

/-- `{"input": item, "result": res_or_None, "error": err_or_None}`. -/
structure Outcome (α β : Type) where
  input : α
  result : Option β
  error : Option String
deriving DecidableEq

/-- Outcome of `_one` plus accounting: total backoff slept (a lower bound on
elapsed time) and the number of service calls made. -/
structure RunResult (α β : Type) where
  outcome : Outcome α β
  sleep_total : ℚ
  attempts_used : Nat
deriving DecidableEq

def AttemptRes.isFail {β : Type} : AttemptRes β → Bool
  | .ok _ => false
  | _ => true

/-- The error string assigned by `_one`'s `except` clauses:
`timeout` gives `f"timeout>{current_timeout}s"`, a `None` result raises
`RuntimeError("llm_none")` caught as `str(e)`, any other exception gives
`str(e) or "connection/error"`. -/
def errOfAttempt {β : Type} (ct : Option ℚ) : AttemptRes β → String
  | .ok _ => ""
  | .nores => "llm_none"
  | .timeout =>
    match ct with
    | some t => "timeout>" ++ toString t ++ "s"
    | none => "timeout>Nones"
  | .exc msg => if msg == "" then "connection/error" else msg

/-- The timeout used on attempt `k` when the initial timeout is `τ`:
`current_timeout` starts at `τ` and each retry sets it to
`min(current_timeout * 2, timeout_sec * 5)`. -/
def escalCT (τ : ℚ) : Nat → ℚ
  | 0 => τ
  | k + 1 => min (escalCT τ k * 2) (τ * 5)

def typeErrorMsg : String :=
  "TypeError: unsupported operand type(s) for *: NoneType and int"

/-- One service call of `_one` at `attempt` under timeout `ct`: either the
loop returns (success, or giving up once `attempt >= retry_attempts`), or it
must sleep, escalate the timeout and retry with `err` as the pending
reason. -/
inductive StepRes (α β : Type) where
  | done (rr : RunResult α β)
  | retry (err : String)

def oneStep {α β : Type} (env : Nat → AttemptRes β) (retry_attempts : Nat)
    (item : α) (attempt : Nat) (ct : Option ℚ) (acc : ℚ) : StepRes α β :=
  match env attempt with
  | .ok r => .done ⟨⟨item, some r, none⟩, acc, attempt + 1⟩
  | a =>
    let err := errOfAttempt ct a
    if retry_attempts ≤ attempt then
      .done ⟨⟨item, none, some err⟩, acc, attempt + 1⟩
    else
      .retry err

/-- `current_timeout = min(current_timeout * 2, timeout_sec * 5)`:
`None * 2` (or `None * 5`) raises `TypeError`. -/
def escalate (ct timeout_sec : Option ℚ) : Except String (Option ℚ) :=
  match ct with
  | none => .error typeErrorMsg
  | some t =>
    match timeout_sec with
    | none => .error typeErrorMsg
    | some t0 => .ok (some (min (t * 2) (t0 * 5)))

/-- The retry loop of `_one`.  `fuel` is always called with
`retry_attempts - attempt`; a retry only happens when
`attempt < retry_attempts`, so the fuel never runs out before the loop
returns and the `"fuel exhausted"` branch is unreachable. -/
def oneGo {α β : Type} (env : Nat → AttemptRes β) (retry_attempts : Nat)
    (timeout_sec : Option ℚ) (retry_backoff_base retry_backoff_max : ℚ)
    (jitter : Nat → ℚ) (item : α) :
    Nat → Nat → Option ℚ → ℚ → Except String (RunResult α β)
  | 0, attempt, ct, acc =>
    match oneStep env retry_attempts item attempt ct acc with
    | .done rr => .ok rr
    | .retry _ =>
      match escalate ct timeout_sec with
      | .error e => .error e
      | .ok _ => .error "fuel exhausted (unreachable)"
  | fuel + 1, attempt, ct, acc =>
    match oneStep env retry_attempts item attempt ct acc with
    | .done rr => .ok rr
    | .retry _ =>
      let sleep_s := min retry_backoff_max (retry_backoff_base * 2 ^ attempt)
        + jitter attempt
      match escalate ct timeout_sec with
      | .error e => .error e
      | .ok ct2 =>
        oneGo env retry_attempts timeout_sec retry_backoff_base
          retry_backoff_max jitter item fuel (attempt + 1) ct2 (acc + sleep_s)

/-- `_one(item)`: run the retry loop from attempt 0 with the initial
timeout. -/
def analyze_one {α β : Type} (env : Nat → AttemptRes β) (retry_attempts : Nat)
    (timeout_sec : Option ℚ) (retry_backoff_base retry_backoff_max : ℚ)
    (jitter : Nat → ℚ) (item : α) : Except String (RunResult α β) :=
  oneGo env retry_attempts timeout_sec retry_backoff_base retry_backoff_max
    jitter item retry_attempts 0 timeout_sec 0

/-- `asyncio.gather`: all tasks succeed and the results are collected, or a
raised exception propagates (which exception wins depends on completion
timing; the model propagates the first by index — the claims only use
whether the call raises). -/
def sequenceE {ε γ : Type} : List (Except ε γ) → Except ε (List γ)
  | [] => .ok []
  | x :: xs =>
    match x with
    | .error e => .error e
    | .ok v =>
      match sequenceE xs with
      | .error e => .error e
      | .ok vs => .ok (v :: vs)

/-- The total per-item outcome function: `_one` never raises except in the
`None`-timeout escalation case; when it raises, this helper records the
exception message as an error outcome (used only to *state* alignment). -/
def outcomeOfIdx {α β : Type} (env : Nat → Nat → AttemptRes β)
    (retry_attempts : Nat) (timeout_sec : Option ℚ)
    (retry_backoff_base retry_backoff_max : ℚ) (jitter : Nat → Nat → ℚ)
    (i : Nat) (item : α) : Outcome α β :=
  match analyze_one (env i) retry_attempts timeout_sec retry_backoff_base
      retry_backoff_max (jitter i) item with
  | .ok rr => rr.outcome
  | .error e => ⟨item, none, some e⟩

/-- `analyze_many(items, max_concurrency, rps, timeout_sec, retry_attempts,
retry_backoff_base, retry_backoff_max)`.  `max_concurrency` and `rps` bound
scheduling only and cannot change any outcome, so they are carried but
unused. -/
def analyze_many {α β : Type} (env : Nat → Nat → AttemptRes β)
    (max_concurrency : Nat) (rps : ℚ) (timeout_sec : Option ℚ)
    (retry_attempts : Nat) (retry_backoff_base retry_backoff_max : ℚ)
    (jitter : Nat → Nat → ℚ) (items : List α) :
    Except String (List (Outcome α β)) :=
  let _ := max_concurrency
  let _ := rps
  sequenceE (items.enum.map fun p =>
    (analyze_one (env p.1) retry_attempts timeout_sec retry_backoff_base
      retry_backoff_max (jitter p.1) p.2).map (·.outcome))

/-- `asyncio.gather`'s collection discipline: tasks finish in some completion
`order`, and each finished task's value is written into the slot of the
task's *index*.  The result is index-aligned no matter the order. -/
def gather_assemble {γ : Type} (n : Nat) (order : List Nat) (task : Nat → γ) :
    List (Option γ) :=
  order.foldl (fun acc j => acc.set j (some (task j))) (List.replicate n none)

/-! ## Time utilities (`notam/timeutils.py`)

`parse_iso_to_utc` strips the input, maps null-like tokens (and malformed
strings) to `None`, and otherwise returns an aware UTC datetime.  The model
keeps the normalized string itself as the datetime value: equality of
normalized ISO-8601 UTC strings coincides with equality of the datetimes the
code produces, and lexicographic order on them coincides with chronological
order, which is all the embedded code observes (the `==` of the unique
constraint and `min`/`max` over time windows).  Control-character stripping
and malformed-string rejection are not modelled.
-/

def _NULL_TOKENS : List String :=
  ["", "NULL", "NONE", "NIL", "N/A", "NA",
   "PERM", "PERMANENT", "UFN", "UNTIL FURTHER NOTICE", "TIL FURTHER NOTICE"]

def parse_iso_to_utc (dt_like : Option String) : Option String :=
  match dt_like with
  | none => none
  | some s =>
    let t := pyStrip s
    if _NULL_TOKENS.contains (pyUpper t) then none else some t

/-- `to_z` renders a UTC datetime back to an ISO string; on the model's
string-valued datetimes it is the identity. -/
def to_z (dt : Option String) : Option String := dt

/-- `persistence._none_if_nullish`. -/
def _none_if_nullish (x : Option String) : Option String :=
  match x with
  | none => none
  | some s =>
    if ["", "NULL", "NONE"].contains (pyUpper (pyStrip s)) then none else some s

/-- `persistence.parse_runway_id`: split an identifier like `"09R"` into
number and side; numbers outside 1..36 or unparsable give `None`.  (Python's
`int` also accepts signed strings; those fall outside 1..36 and agree with
the parse-failure branch.) -/
def parse_runway_id (runway_id : String) : Option Nat × Option Char :=
  if runway_id == "" then (none, none)
  else
    let s := pyUpper (pyStrip runway_id)
    let side : Option Char :=
      match s.data.getLast? with
      | some c => if c == 'L' || c == 'C' || c == 'R' then some c else none
      | none => none
    let s2 : String := match side with | some _ => ⟨s.data.dropLast⟩ | none => s
    match pyToNat? s2 with
    | some num => if 1 ≤ num ∧ num ≤ 36 then (some num, side) else (none, side)
    | none => (none, side)

/-- Lexicographic order on strings (equals chronological order on the
normalized ISO-8601 UTC strings the model uses as datetimes). -/
def charListLe : List Char → List Char → Bool
  | [], _ => true
  | _ :: _, [] => false
  | a :: as, b :: bs => if a == b then charListLe as bs else decide (a < b)

def strle (a b : String) : Bool := charListLe a.data b.data

def strMin2 (a b : String) : String := if strle a b then a else b

def strMax2 (a b : String) : String := if strle a b then b else a

/-- Python `min` over a nonempty list (`None` on empty, never hit). -/
def strMinimum : List String → Option String
  | [] => none
  | x :: xs => some (xs.foldl strMin2 x)

def strMaximum : List String → Option String
  | [] => none
  | x :: xs => some (xs.foldl strMax2 x)

/-! ## The analysis result (`notam/models.py`, class `Notam_Analysis`)

Fields mirror the pydantic model, restricted to those `save_to_db` reads.
Enumerations are modelled as their string values; coordinates as rational
pairs. -/

structure WingspanRestriction where
  min_m : Option ℚ
  min_inclusive : Bool
  max_m : Option ℚ
  max_inclusive : Bool
deriving DecidableEq

structure ExtractedRunwayCondition where
  runway_id : String
  friction_value : Option Nat
deriving DecidableEq

structure ExtractedObstacle where
  type : String
  height_agl_ft : Int
  height_amsl_ft : Option Int
  location : Option (ℚ × ℚ)
  lighting : String
deriving DecidableEq

structure ExtractedElements where
  runways : List String
  runway_conditions : List ExtractedRunwayCondition
  taxiways : List String
  obstacles : List ExtractedObstacle
  procedures : List String
deriving DecidableEq

structure AircraftApplicability where
  sizes : List String
  propulsion : Option (List String)
  wingspan_restriction : Option WingspanRestriction
deriving DecidableEq

structure SpecificPeriodUTC where
  start_iso : String
  end_iso : String
deriving DecidableEq

structure Notam_Analysis where
  notam_number : String
  issue_time : String
  notam_category : String
  operational_instances : Option (List SpecificPeriodUTC)
  severity_level : String
  start_time : Option String
  end_time : Option String
  flight_phases : List String
  time_of_day_applicability : String
  flight_rule_applicability : String
  aircraft_applicability : AircraftApplicability
  operational_tag : List String
  primary_category : String
  affected_airports : List String
  notam_summary : String
  one_line_description : String
  extracted_elements : Option ExtractedElements
  replacing_notam : Option String
deriving DecidableEq

/-! ## The relational store (`notam/db.py`)

Tables are lists of rows.  `NotamRow` mirrors the `NotamRecord` columns the
pipeline writes (the scoring columns `base_score_ifr`/`base_score_vfr` are
set from `compute_base_score`, which no claim mentions; they are omitted).
The many-to-many association tables `notam_airports` and
`notam_operational_tags` are carried as ordered code/name lists on the row,
matching the ORM relationship collections. -/

structure NotamRow where
  id : Nat
  raw_hash : String
  notam_number : String
  notam_category : String
  severity_level : String
  issue_time : Option String
  operational_instance : List (String × String)
  start_time : Option String
  end_time : Option String
  time_of_day_applicability : String
  flight_rule_applicability : String
  primary_category : String
  affected_airports_snapshot : List String
  notam_summary : String
  one_line_description : String
  icao_message : String
  replacing_notam : Option String
  airports : List String
  operational_tags : List String
deriving DecidableEq

structure AirportRow where
  icao_code : String
  name : String
deriving DecidableEq

structure FlightPhaseRow where
  notam_id : Nat
  phase : String
deriving DecidableEq

structure SizeRow where
  notam_id : Nat
  size : String
deriving DecidableEq

structure PropulsionRow where
  notam_id : Nat
  propulsion : String
deriving DecidableEq

structure WingspanRow where
  notam_id : Nat
  min_m : Option ℚ
  min_inclusive : Bool
  max_m : Option ℚ
  max_inclusive : Bool
deriving DecidableEq

structure TaxiwayRow where
  notam_id : Nat
  airport_code : String
  taxiway_id : String
deriving DecidableEq

structure ProcedureRow where
  notam_id : Nat
  airport_code : String
  procedure_name : String
deriving DecidableEq

structure ObstacleRow where
  notam_id : Nat
  type : String
  height_agl_ft : Int
  height_amsl_ft : Option Int
  latitude : Option ℚ
  longitude : Option ℚ
  lighting : String
deriving DecidableEq

structure RunwayRow where
  notam_id : Nat
  airport_code : String
  runway_number : Nat
  runway_side : Option Char
deriving DecidableEq

structure RunwayConditionRow where
  notam_id : Nat
  airport_code : String
  runway_number : Nat
  runway_side : Option Char
  friction_value : Option Nat
deriving DecidableEq

structure HistoryRow where
  notam_id : Nat
  action : String
deriving DecidableEq

/-- `db.FailedNotam` (table `failed_notams`). -/
structure FailedNotamRow where
  id : Nat
  notam_number : String
  icao_message : String
  airport : String
  issue_time : Option String
  raw_hash : String
  failure_reason : Option String
  retry_count : Nat
  last_retry_at : Option ℚ
deriving DecidableEq

structure Db where
  next_id : Nat
  notams : List NotamRow
  airports_table : List AirportRow
  tags_table : List String
  flight_phases : List FlightPhaseRow
  aircraft_sizes : List SizeRow
  aircraft_propulsions : List PropulsionRow
  wingspans : List WingspanRow
  taxiways : List TaxiwayRow
  procedures : List ProcedureRow
  obstacles : List ObstacleRow
  runways : List RunwayRow
  runway_conditions : List RunwayConditionRow
  history : List HistoryRow
  failed_notams : List FailedNotamRow
deriving DecidableEq

def emptyDb : Db := ⟨1, [], [], [], [], [], [], [], [], [], [], [], [], [], []⟩

inductive DbError
  | integrity
deriving DecidableEq

/-- A dict produced by the fetcher / consumer: the keys of `item` that
`save_results_batch` and `analyze_many` read.  `airport` is optional —
`item.get("airport", "Unknown")`. -/
structure Item where
  notam_number : String
  icao_message : String
  issue_time : String
  raw_hash : String
  airport : Option String
deriving DecidableEq

/-- `get_or_create_airport` inside `save_to_db`: look up by `icao_code`,
inserting `Airport(icao_code=code, name=f"{code} Airport")` when absent. -/
def get_or_create_airport (tbl : List AirportRow) (code : String) :
    List AirportRow :=
  match tbl.find? (fun a => a.icao_code == code) with
  | some _ => tbl
  | none => tbl ++ [⟨code, code ++ " Airport"⟩]

/-- Tag lookup-or-insert (`OperationalTag` has a unique `tag_name`). -/
def get_or_create_tag (tbl : List String) (tag_name : String) : List String :=
  if tbl.contains tag_name then tbl else tbl ++ [tag_name]

/-! ## `persistence.save_to_db`

The function upserts by `raw_hash` and rewrites the owned child collections.
It is split into the updated `notams` table (`save_notams`), the unique
constraint check that the session `flush` performs (`save_conflict`) and the
full success state (`save_core`); `save_to_db` composes them.  SQLAlchemy
flushes once for an insert (right after `session.add`) and at the end for
both paths; since an `IntegrityError` rolls the whole item back, checking the
constraints once is observationally equivalent and is what the model does.
-/

/-- The time-window JSON array built from `result.operational_instances`,
keeping only windows where both bounds parse. -/
def opsArrayOf (result : Notam_Analysis) : List (String × String) :=
  (result.operational_instances.getD []).foldr
    (fun sl acc =>
      match to_z (parse_iso_to_utc (some sl.start_iso)),
            to_z (parse_iso_to_utc (some sl.end_iso)) with
      | some s, some e => (s, e) :: acc
      | _, _ => acc)
    []

/-- The `start_time`/`end_time` bounds: extremes of the window list when
nonempty, else the explicit fields (start falling back to `issue_time`,
end filtered through `_none_if_nullish`). -/
def boundsOf (result : Notam_Analysis) : Option String × Option String :=
  let ops_array := opsArrayOf result
  if ops_array.isEmpty then
    (match parse_iso_to_utc result.start_time with
     | some x => some x
     | none => parse_iso_to_utc (some result.issue_time),
     parse_iso_to_utc (_none_if_nullish result.end_time))
  else
    (strMinimum (ops_array.map (·.1)), strMaximum (ops_array.map (·.2)))

/-- The ordered `airports` collection rebuilt by `save_to_db`: cleared on
update (new rows start empty), then the primary airport, then each affected
airport that is nonempty, differs from the primary and is not already
linked. -/
def airportsListOf (result : Notam_Analysis) (airport_code : String) :
    List String :=
  result.affected_airports.foldl
    (fun acc icao =>
      if icao != "" && icao != airport_code && !(acc.contains icao) then
        acc ++ [icao]
      else acc)
    [airport_code]

/-- The airports table after the `get_or_create_airport` calls (primary
first, then every nonempty affected code other than the primary). -/
def airportsTableOf (tbl : List AirportRow) (result : Notam_Analysis)
    (airport_code : String) : List AirportRow :=
  result.affected_airports.foldl
    (fun t icao =>
      if icao != "" && icao != airport_code then get_or_create_airport t icao
      else t)
    (get_or_create_airport tbl airport_code)

/-- The rebuilt `operational_tags` collection (cleared on update, appended
without duplicates). -/
def tagsListOf (result : Notam_Analysis) : List String :=
  result.operational_tag.foldl
    (fun acc tag_name =>
      if acc.contains tag_name then acc else acc ++ [tag_name])
    []

def tagsTableOf (tbl : List String) (result : Notam_Analysis) : List String :=
  result.operational_tag.foldl get_or_create_tag tbl

/-- The row `save_to_db` writes (insert) or the field values it assigns to
the existing row (update). -/
def rowOf (result : Notam_Analysis) (raw_text notam_number raw_hash
    airport_code : String) (nid : Nat) : NotamRow :=
  let ops_array := opsArrayOf result
  let bounds := boundsOf result
  { id := nid
    raw_hash := raw_hash
    notam_number := notam_number
    notam_category := result.notam_category
    severity_level := result.severity_level
    issue_time := parse_iso_to_utc (some result.issue_time)
    operational_instance := ops_array
    start_time := bounds.1
    end_time := bounds.2
    time_of_day_applicability := result.time_of_day_applicability
    flight_rule_applicability := result.flight_rule_applicability
    primary_category := result.primary_category
    affected_airports_snapshot := result.affected_airports
    notam_summary := result.notam_summary
    one_line_description := result.one_line_description
    icao_message := raw_text
    replacing_notam :=
      match result.replacing_notam with
      | some s => if s == "" then none else some s
      | none => none
    airports := airportsListOf result airport_code
    operational_tags := tagsListOf result }

/-- The `notams` table after the upsert: replace the found row in place, or
append the new row. -/
def save_notams (notams : List NotamRow) (row : NotamRow) (is_update : Bool) :
    List NotamRow :=
  if is_update then notams.map (fun r => if r.id == row.id then row else r)
  else notams ++ [row]

/-- `UNIQUE (notam_number, issue_time)` (`uq_notam_number_issue`): another
row with the same number and the same non-NULL issue time (SQL `NULL`s never
collide). -/
def uq_conflict (notams : List NotamRow) (nid : Nat) (num : String)
    (it : Option String) : Bool :=
  notams.any fun r =>
    r.id != nid && r.notam_number == num &&
      match r.issue_time, it with
      | some a, some b => a == b
      | _, _ => false

/-- `UNIQUE raw_hash` on `notams` (unreachable through the upsert-by-hash
path, kept for faithfulness to the schema). -/
def rawhash_conflict (notams : List NotamRow) (nid : Nat) (h : String) :
    Bool :=
  notams.any fun r => r.id != nid && r.raw_hash == h

/-- Whether the item's flush raises `IntegrityError`. -/
def save_conflict (db : Db) (result : Notam_Analysis)
    (raw_text notam_number raw_hash airport_code : String) : Bool :=
  let found := db.notams.find? (fun r => r.raw_hash == raw_hash)
  let nid := match found with | some r => r.id | none => db.next_id
  let it := parse_iso_to_utc (some result.issue_time)
  let notams1 := save_notams db.notams
    (rowOf result raw_text notam_number raw_hash airport_code nid) found.isSome
  rawhash_conflict notams1 nid raw_hash || uq_conflict notams1 nid notam_number it

/-- The child-row derivations of `save_to_db` (each `delete`s old rows by
`notam_id` and re-adds; `runways` deletes only rows of the *primary* airport
code; the wingspan path deletes the first existing row). -/
def phasesOf (result : Notam_Analysis) (nid : Nat) : List FlightPhaseRow :=
  result.flight_phases.map fun p => ⟨nid, p⟩

def sizesOf (result : Notam_Analysis) (nid : Nat) : List SizeRow :=
  result.aircraft_applicability.sizes.map fun s => ⟨nid, s⟩

def propulsionsOf (result : Notam_Analysis) (nid : Nat) : List PropulsionRow :=
  (result.aircraft_applicability.propulsion.getD []).map fun pr => ⟨nid, pr⟩

def wingspansOf (result : Notam_Analysis) (nid : Nat) : List WingspanRow :=
  match result.aircraft_applicability.wingspan_restriction with
  | some ws =>
    if ws.min_m.isSome || ws.max_m.isSome then
      [⟨nid, ws.min_m, ws.min_inclusive, ws.max_m, ws.max_inclusive⟩]
    else []
  | none => []

def taxiwaysOf (result : Notam_Analysis) (nid : Nat) (primary : String) :
    List TaxiwayRow :=
  match result.extracted_elements with
  | some ee => ee.taxiways.filterMap
      (fun t => if t == "" then none else some ⟨nid, primary, pyUpper t⟩)
  | none => []

def proceduresOf (result : Notam_Analysis) (nid : Nat) (primary : String) :
    List ProcedureRow :=
  match result.extracted_elements with
  | some ee => ee.procedures.filterMap
      (fun pr => if pr == "" then none else some ⟨nid, primary, pyUpper pr⟩)
  | none => []

def obstaclesOf (result : Notam_Analysis) (nid : Nat) : List ObstacleRow :=
  match result.extracted_elements with
  | some ee => ee.obstacles.map fun o =>
      ⟨nid, o.type, o.height_agl_ft, o.height_amsl_ft,
       o.location.map (·.1), o.location.map (·.2), o.lighting⟩
  | none => []

def runwaysOf (result : Notam_Analysis) (nid : Nat) (primary : String) :
    List RunwayRow :=
  match result.extracted_elements with
  | some ee => ee.runways.filterMap
      (fun rwy =>
        match parse_runway_id rwy with
        | (some num, side) => some ⟨nid, primary, num, side⟩
        | (none, _) => none)
  | none => []

def runwayCondsOf (result : Notam_Analysis) (nid : Nat) (primary : String) :
    List RunwayConditionRow :=
  match result.extracted_elements with
  | some ee => ee.runway_conditions.filterMap
      (fun rc =>
        match parse_runway_id rc.runway_id with
        | (some num, side) => some ⟨nid, primary, num, side, rc.friction_value⟩
        | (none, _) => none)
  | none => []

/-- The state `save_to_db` leaves when no constraint fires, with the id it
returns. -/
def save_core (db : Db) (result : Notam_Analysis)
    (raw_text notam_number raw_hash airport_code : String) : Db × Nat :=
  let found := db.notams.find? (fun r => r.raw_hash == raw_hash)
  let is_update := found.isSome
  let nid := match found with | some r => r.id | none => db.next_id
  let row := rowOf result raw_text notam_number raw_hash airport_code nid
  ({ next_id := if is_update then db.next_id else db.next_id + 1
     notams := save_notams db.notams row is_update
     airports_table := airportsTableOf db.airports_table result airport_code
     tags_table := tagsTableOf db.tags_table result
     flight_phases :=
       db.flight_phases.filter (fun p => p.notam_id != nid)
         ++ phasesOf result nid
     aircraft_sizes :=
       db.aircraft_sizes.filter (fun p => p.notam_id != nid)
         ++ sizesOf result nid
     aircraft_propulsions :=
       db.aircraft_propulsions.filter (fun p => p.notam_id != nid)
         ++ propulsionsOf result nid
     wingspans :=
       db.wingspans.eraseP (fun p => p.notam_id == nid)
         ++ wingspansOf result nid
     taxiways :=
       db.taxiways.filter (fun p => p.notam_id != nid)
         ++ taxiwaysOf result nid airport_code
     procedures :=
       db.procedures.filter (fun p => p.notam_id != nid)
         ++ proceduresOf result nid airport_code
     obstacles :=
       db.obstacles.filter (fun p => p.notam_id != nid)
         ++ obstaclesOf result nid
     runways :=
       db.runways.filter
           (fun r => !(r.notam_id == nid && r.airport_code == airport_code))
         ++ runwaysOf result nid airport_code
     runway_conditions :=
       db.runway_conditions.filter (fun p => p.notam_id != nid)
         ++ runwayCondsOf result nid airport_code
     history :=
       db.history ++ [⟨nid, if is_update then "UPDATED" else "CREATED"⟩]
     failed_notams := db.failed_notams }, nid)

/-- `save_to_db` with an injected session and `autocommit=False`: raise
`IntegrityError` to the caller's savepoint, else flush the new state.  (With
`autocommit=True` the same computation commits on success and rolls back to
the unchanged `db` on error, which callers model by keeping `db`.) -/
def save_to_db (db : Db) (result : Notam_Analysis)
    (raw_text notam_number raw_hash airport_code : String) :
    Except DbError (Db × Nat) :=
  if save_conflict db result raw_text notam_number raw_hash airport_code then
    .error .integrity
  else .ok (save_core db result raw_text notam_number raw_hash airport_code)

/-! ## `save_results_batch`, `truncate_all_notams`, `delete_notams_by_ids` -/

/-- `TRUNCATE TABLE notams CASCADE` (no `RESTART IDENTITY`): empties the
`notams` table and every table with a foreign key onto it; the `airports`,
`operational_tags` and `failed_notams` tables have no such key and remain. -/
def truncate_all_notams (db : Db) : Db :=
  { db with notams := [], flight_phases := [], aircraft_sizes := [],
            aircraft_propulsions := [], wingspans := [], taxiways := [],
            procedures := [], obstacles := [], runways := [],
            runway_conditions := [], history := [] }

/-- `delete_notams_by_ids`: children first, then the parent rows. -/
def delete_notams_by_ids (db : Db) (ids : List Nat) : Db :=
  { db with
    notams := db.notams.filter (fun r => !(ids.contains r.id))
    flight_phases := db.flight_phases.filter (fun r => !(ids.contains r.notam_id))
    wingspans := db.wingspans.filter (fun r => !(ids.contains r.notam_id))
    taxiways := db.taxiways.filter (fun r => !(ids.contains r.notam_id))
    procedures := db.procedures.filter (fun r => !(ids.contains r.notam_id))
    obstacles := db.obstacles.filter (fun r => !(ids.contains r.notam_id))
    runway_conditions :=
      db.runway_conditions.filter (fun r => !(ids.contains r.notam_id))
    runways := db.runways.filter (fun r => !(ids.contains r.notam_id))
    history := db.history.filter (fun r => !(ids.contains r.notam_id)) }

/-- One iteration of the batch loop: skip analysis failures; wrap the save in
a savepoint — `IntegrityError` or any other error rolls back to the state
before the item and the loop continues. -/
def save_step (s : Db) (r : Outcome Item Notam_Analysis) : Db :=
  match r.result with
  | none => s
  | some res =>
    match save_to_db s res r.input.icao_message r.input.notam_number
        r.input.raw_hash (r.input.airport.getD "Unknown") with
    | .ok (s2, _) => s2
    | .error _ => s

/-- `save_results_batch(batch_results, overwrite_all, overwrite_db_ids)`:
one outer transaction — optional truncate or targeted delete, then the
per-item savepoint loop; the outer transaction commits at the end (the
function is total: only a connection-level failure, outside the model, could
abort the whole batch). -/
def save_results_batch (db : Db) (batch_results : List (Outcome Item Notam_Analysis))
    (overwrite_all : Bool := false) (overwrite_db_ids : List Nat := []) : Db :=
  let db0 :=
    if overwrite_all then truncate_all_notams db
    else if !overwrite_db_ids.isEmpty then delete_notams_by_ids db overwrite_db_ids
    else db
  batch_results.foldl save_step db0

/-! ## Two-pass orchestrator (`notam/pipeline.py`, `run_pipeline`)

The CSV fetch and hash-based dedup select the analysis queue `to_analyze`;
the embedding starts there and models the two analysis passes and their
persistence.  `env1`/`env2` are the service oracles of the two passes
(indexed by the position of the item in the pass's input list).  The trace
records what was submitted where, in program order. -/

inductive PipelineEvent
  | analyze_pass (pass : Nat) (items : List Item)
  | save_batch (results : List (Outcome Item Notam_Analysis))
      (overwrite_all : Bool) (overwrite_db_ids : List Nat)
deriving DecidableEq

def run_pipeline (env1 env2 : Nat → Nat → AttemptRes Notam_Analysis)
    (max_concurrency : Nat) (rps_first : ℚ) (timeout_sec : Option ℚ)
    (retry_attempts : Nat)
    (retry_concurrency : Nat) (rps_retry : ℚ) (retry_timeout_sec : Option ℚ)
    (retry_attempts_pass2 : Nat)
    (retry_backoff_base retry_backoff_max : ℚ) (jitter1 jitter2 : Nat → Nat → ℚ)
    (overwrite_all : Bool) (overwrite_db_ids : List Nat)
    (db : Db) (to_analyze : List Item) :
    Except String (List PipelineEvent × Db) :=
  if to_analyze.isEmpty then .ok ([], db)
  else
    match analyze_many env1 max_concurrency rps_first timeout_sec
        retry_attempts retry_backoff_base retry_backoff_max jitter1 to_analyze with
    | .error e => .error e
    | .ok results1 =>
      let db1 := save_results_batch db results1 overwrite_all overwrite_db_ids
      let fail_items := (results1.filter (fun r => r.result.isNone)).map (·.input)
      if fail_items.isEmpty then
        .ok ([.analyze_pass 1 to_analyze,
              .save_batch results1 overwrite_all overwrite_db_ids], db1)
      else
        match analyze_many env2 retry_concurrency rps_retry retry_timeout_sec
            retry_attempts_pass2 retry_backoff_base retry_backoff_max jitter2
            fail_items with
        | .error e => .error e
        | .ok results2 =>
          let db2 := save_results_batch db1 results2
          .ok ([.analyze_pass 1 to_analyze,
                .save_batch results1 overwrite_all overwrite_db_ids,
                .analyze_pass 2 fail_items,
                .save_batch results2 false []], db2)

/-! ## Retry queue manager (`notam/services/retry_failed.py`)

`FailedNotamRetryService.retry_failed_notams` calls two methods that are not
defined anywhere in the repository: `get_failed_notams_for_retry` and
`cleanup_successful_retries`.  They are modelled from the spec below; the
rest of the service is embedded from the source. -/

/-- Ordering used for retry scheduling: oldest `last_retry_at` first, with
SQL `NULL`s (never retried) ordered first. -/
def retry_le (a b : FailedNotamRow) : Bool :=
  match a.last_retry_at, b.last_retry_at with
  | none, _ => true
  | some _, none => false
  | some x, some y => decide (x ≤ y)

def insertRow (x : FailedNotamRow) : List FailedNotamRow → List FailedNotamRow
  | [] => [x]
  | y :: ys => if retry_le x y then x :: y :: ys else y :: insertRow x ys

/-- Insertion sort by `retry_le` (the model of `ORDER BY last_retry_at`). -/
def sortRows : List FailedNotamRow → List FailedNotamRow
  | [] => []
  | x :: xs => insertRow x (sortRows xs)

/-- Modelled from the spec: `get_failed_notams_for_retry(limit)` is called by
`retry_failed_notams` but is missing from the repository.  Spec §4.4:
"`selectForRetry(limit) -> notices[]`: returns FailedNotices with
`retry_count < maxAttempts`, oldest `last_retry_at` first, bounded by
`limit`; EXHAUSTED records are never returned." -/
def get_failed_notams_for_retry (max_retry_attempts : Nat)
    (rows : List FailedNotamRow) (limit : Nat) : List FailedNotamRow :=
  (sortRows (rows.filter fun r => r.retry_count < max_retry_attempts)).take limit

/-- Modelled from the spec: `cleanup_successful_retries(successful_hashes)`
is called by `retry_failed_notams` but is missing from the repository.
Spec §4.4: "`resolve(notice)`: deletes the FailedNotice once a retry
succeeds." -/
def cleanup_successful_retries (rows : List FailedNotamRow)
    (successful_hashes : List String) : List FailedNotamRow :=
  rows.filter fun r => !(successful_hashes.contains r.raw_hash)

/-- `get_retry_stats`: `(total, pending, exhausted)`. -/
def get_retry_stats (max_retry_attempts : Nat) (rows : List FailedNotamRow) :
    Nat × Nat × Nat :=
  let total := rows.length
  let pending := (rows.filter fun r => r.retry_count < max_retry_attempts).length
  (total, pending, total - pending)

/-- The dict fed back into `analyze_many` for a quarantined notice
(modelled from the spec alongside `get_failed_notams_for_retry`). -/
def failed_row_to_item (r : FailedNotamRow) : Item :=
  ⟨r.notam_number, r.icao_message, r.issue_time.getD "", r.raw_hash, some r.airport⟩

/-- `FailedNotamRetryService.retry_failed_notams(batch_size)`: stats guard,
select, gentle re-analysis (`max_concurrency=5`, `rps=1.0`,
`timeout_sec=240.0`, `retry_attempts=1`, default backoff 1.5/8.0), save, and
cleanup of the hashes that succeeded.  `analyze_many` cannot raise here
(timeout configured), so the `.error` branch is dead. -/
def retry_failed_notams (env : Nat → Nat → AttemptRes Notam_Analysis)
    (jitter : Nat → Nat → ℚ) (max_retry_attempts : Nat) (db : Db)
    (batch_size : Nat := 20) : Db :=
  let stats := get_retry_stats max_retry_attempts db.failed_notams
  if stats.2.1 == 0 then db
  else
    let failed_rows := get_failed_notams_for_retry max_retry_attempts
      db.failed_notams batch_size
    let failed_items := failed_rows.map failed_row_to_item
    if failed_items.isEmpty then db
    else
      match analyze_many env 5 1 (some 240) 1 (3 / 2 : ℚ) 8 jitter failed_items with
      | .error _ => db
      | .ok results =>
        let db1 := save_results_batch db results
        let successful_hashes :=
          (results.filter fun r => r.result.isSome).map (·.input.raw_hash)
        { db1 with failed_notams :=
            cleanup_successful_retries db1.failed_notams successful_hashes }

/-! ## Streaming consumer micro-batching (`swim_consumer.py`, `flush_loop`)

The flush loop wakes every 0.5 s.  At a wake-up at time `now` it appends the
messages the receiver buffered since the previous wake-up, then flushes the
whole buffer when it has reached `batch_size`, or when `batch_secs` have
elapsed since the last flush and the buffer is nonempty.  Tick times are an
abstract increasing sequence `now : Nat → ℚ` (flush work delays later
ticks); `arrivals t` are the messages buffered between wake-ups `t-1` and
`t`.  Flushed batches are handed to `analyze_many` + `repository.save_batch`;
the model records them. -/

structure FlushState (α : Type) where
  msgs : List α
  last_flush : ℚ
  flushes : List (List α)
deriving DecidableEq

def flush_step {α : Type} (batch_size : Nat) (batch_secs : ℚ)
    (st : FlushState α) (arrive : List α) (now : ℚ) : FlushState α :=
  let msgs := st.msgs ++ arrive
  let do_time := decide (batch_secs ≤ now - st.last_flush)
  let do_size := decide (batch_size ≤ msgs.length)
  if do_size || (do_time && !msgs.isEmpty) then
    ⟨[], now, st.flushes ++ [msgs]⟩
  else
    ⟨msgs, st.last_flush, st.flushes⟩

/-- The state after `t` wake-ups; `last_flush` starts at the loop's start
time `now 0` with an empty buffer. -/
def flush_loop {α : Type} (batch_size : Nat) (batch_secs : ℚ)
    (arrivals : Nat → List α) (now : Nat → ℚ) : Nat → FlushState α
  | 0 => ⟨[], now 0, []⟩
  | t + 1 =>
    flush_step batch_size batch_secs
      (flush_loop batch_size batch_secs arrivals now t)
      (arrivals (t + 1)) (now (t + 1))

/-! ## Well-formedness of the store, and concrete fixtures

`DbWf` packages the schema facts every real database state satisfies:
`raw_hash` is unique (declared `unique=True`), `id` is the primary key, and
the id sequence is ahead of every allocated id. -/

def DbWf (db : Db) : Prop :=
  (db.notams.map (·.raw_hash)).Nodup ∧ (db.notams.map (·.id)).Nodup ∧
    ∀ r ∈ db.notams, r.id < db.next_id

/-- A call to `save_to_db` with its own session (`autocommit=True`): commit
on success, roll back (state unchanged) on error. -/
structure SaveCall where
  result : Notam_Analysis
  raw_text : String
  notam_number : String
  raw_hash : String
  airport_code : String
deriving DecidableEq

def save_to_db_commit (db : Db) (c : SaveCall) : Db :=
  match save_to_db db c.result c.raw_text c.notam_number c.raw_hash
      c.airport_code with
  | .ok (d, _) => d
  | .error _ => db

def apply_saves (db : Db) (calls : List SaveCall) : Db :=
  calls.foldl save_to_db_commit db

/-- A minimal analysis record (empty child collections). -/
def mkResult (num issue : String) : Notam_Analysis :=
  { notam_number := num
    issue_time := issue
    notam_category := "AIRPORT"
    operational_instances := some []
    severity_level := "ADVISORY"
    start_time := none
    end_time := none
    flight_phases := []
    time_of_day_applicability := "ALL TIMES"
    flight_rule_applicability := "ALL RULES"
    aircraft_applicability := ⟨[], none, none⟩
    operational_tag := []
    primary_category := "AERODROME_OPERATIONS"
    affected_airports := []
    notam_summary := "s"
    one_line_description := "d"
    extracted_elements := none
    replacing_notam := none }

/-- Like `mkResult` but with extracted runway identifiers. -/
def mkResultRwy (num issue : String) (rwys : List String) : Notam_Analysis :=
  { mkResult num issue with extracted_elements := some ⟨rwys, [], [], [], []⟩ }

def mkItem (num msg h : String) (ap : Option String) : Item :=
  ⟨num, msg, "2025-01-01T00:00:00Z", h, ap⟩

def okOutcome (it : Item) (res : Notam_Analysis) :
    Outcome Item Notam_Analysis := ⟨it, some res, none⟩

/-- C1's scenario batch: five analysed outcomes with distinct hashes; item 3
shares `(notam_number, issue_time)` with item 1 and therefore violates
`uq_notam_number_issue` when its insert flushes. -/
def exBatchC1 : List (Outcome Item Notam_Analysis) :=
  [okOutcome (mkItem "A1" "m1" "h1" (some "AAAA"))
     (mkResult "A1" "2025-01-01T00:00:00Z"),
   okOutcome (mkItem "A2" "m2" "h2" (some "AAAA"))
     (mkResult "A2" "2025-01-01T00:00:00Z"),
   okOutcome (mkItem "A1" "m3" "h3" (some "AAAA"))
     (mkResult "A1" "2025-01-01T00:00:00Z"),
   okOutcome (mkItem "A4" "m4" "h4" (some "AAAA"))
     (mkResult "A4" "2025-01-01T00:00:00Z"),
   okOutcome (mkItem "A5" "m5" "h5" (some "AAAA"))
     (mkResult "A5" "2025-01-01T00:00:00Z")]

/-- C2's counterexample data: the same `raw_hash` saved twice with the same
extracted runway `09`, but under two different primary airport codes. -/
def resRwy09 : Notam_Analysis := mkResultRwy "A1" "2025-01-01T00:00:00Z" ["09"]

def exDbRwy : Db :=
  apply_saves emptyDb
    [⟨resRwy09, "m", "A1", "H", "AAAA"⟩, ⟨resRwy09, "m", "A1", "H", "BBBB"⟩]

/-- C7's counterexample: a service that always raises, so the single item
exhausts its retry budget in both passes of the pipeline. -/
def envBoom : Nat → Nat → AttemptRes Notam_Analysis := fun _ _ => .exc "boom"

def itemX : Item := mkItem "A1/24" "RWY 09 CLSD" "HX" (some "AAAA")

/-- C9's scenario: 7 messages within one 2-second interval, 5 buffered
before the first wake-up and 2 before the second. -/
def arrivals7 : Nat → List Nat :=
  fun t => if t = 1 then [1, 2, 3, 4, 5] else if t = 2 then [6, 7] else []

/-- The flush loop wakes every 0.5 s. -/
def halfSecTicks : Nat → ℚ := fun t => t / 2

/-- C7 witness data: one quarantined notice with one retry left. -/
def exFailedRow : FailedNotamRow :=
  ⟨1, "A1/24", "RWY 09 CLSD", "AAAA", some "2025-01-01T00:00:00Z", "HX",
   some "boom", 1, some 0⟩

def exDbFailed : Db := { emptyDb with failed_notams := [exFailedRow] }

theorem oneStep_done_facts {α β : Type} (env : Nat → AttemptRes β) (ra : Nat)
    (item : α) (attempt : Nat) (ct : Option ℚ) (acc : ℚ) (rr : RunResult α β)
    (h : oneStep env ra item attempt ct acc = .done rr) :
    rr.attempts_used = attempt + 1 ∧ rr.outcome.input = item ∧
      rr.sleep_total = acc := by
  unfold oneStep at h
  cases henv : env attempt <;> rw [henv] at h
  · simp at h; subst h; exact ⟨rfl, rfl, rfl⟩
  all_goals
    by_cases hle : ra ≤ attempt <;> simp [hle] at h
  all_goals (subst h; exact ⟨rfl, rfl, rfl⟩)

theorem oneGo_ok_bound {α β : Type} (env : Nat → AttemptRes β) (ra : Nat)
    (ts : Option ℚ) (base cap : ℚ) (j : Nat → ℚ) (item : α) :
    ∀ (fuel attempt : Nat) (ct : Option ℚ) (acc : ℚ) (rr : RunResult α β),
      oneGo env ra ts base cap j item fuel attempt ct acc = .ok rr →
      rr.attempts_used ≤ attempt + fuel + 1 ∧ rr.outcome.input = item := by
  intro fuel
  induction fuel with
  | zero =>
    intro attempt ct acc rr h
    rw [oneGo] at h
    cases hs : oneStep env ra item attempt ct acc <;> rw [hs] at h
    · simp at h; subst h
      have := oneStep_done_facts env ra item attempt ct acc _ hs
      exact ⟨by omega, this.2.1⟩
    · cases he : escalate ct ts <;> rw [he] at h <;> simp at h
  | succ f ih =>
    intro attempt ct acc rr h
    rw [oneGo] at h
    cases hs : oneStep env ra item attempt ct acc <;> rw [hs] at h
    · simp at h; subst h
      have := oneStep_done_facts env ra item attempt ct acc _ hs
      exact ⟨by omega, this.2.1⟩
    · cases he : escalate ct ts <;> rw [he] at h
      · simp at h
      · have := ih (attempt + 1) _ _ rr h
        exact ⟨by omega, this.2⟩

theorem oneStep_done_of_le {α β : Type} (env : Nat → AttemptRes β) (ra : Nat)
    (item : α) (attempt : Nat) (ct : Option ℚ) (acc : ℚ) (h : ra ≤ attempt) :
    ∃ rr, oneStep env ra item attempt ct acc = .done rr := by
  unfold oneStep
  cases env attempt <;> simp [h]

theorem oneStep_retry_facts {α β : Type} (env : Nat → AttemptRes β) (ra : Nat)
    (item : α) (attempt : Nat) (ct : Option ℚ) (acc : ℚ) (err : String)
    (h : oneStep env ra item attempt ct acc = .retry err) :
    attempt < ra ∧ err = errOfAttempt ct (env attempt)
      ∧ (env attempt).isFail = true := by
  unfold oneStep at h
  cases henv : env attempt <;> rw [henv] at h
  · simp at h
  all_goals by_cases hle : ra ≤ attempt <;> simp [hle] at h
  all_goals exact ⟨by omega, h.symm, rfl⟩

theorem oneStep_retry_of_fail {α β : Type} (env : Nat → AttemptRes β)
    (ra : Nat) (item : α) (attempt : Nat) (ct : Option ℚ) (acc : ℚ)
    (hf : (env attempt).isFail = true) (hlt : attempt < ra) :
    oneStep env ra item attempt ct acc
      = .retry (errOfAttempt ct (env attempt)) := by
  unfold oneStep
  cases henv : env attempt <;>
    simp [AttemptRes.isFail, henv, Nat.not_le.mpr hlt] at hf ⊢

theorem oneGo_isOk {α β : Type} (env : Nat → AttemptRes β) (ra : Nat)
    (τ0 base cap : ℚ) (j : Nat → ℚ) (item : α) :
    ∀ (fuel attempt : Nat) (t : ℚ) (acc : ℚ), ra - attempt ≤ fuel →
      ∃ rr, oneGo env ra (some τ0) base cap j item fuel attempt (some t) acc
        = .ok rr := by
  intro fuel
  induction fuel with
  | zero =>
    intro attempt t acc hle
    obtain ⟨rr, hrr⟩ := oneStep_done_of_le env ra item attempt (some t) acc
      (by omega)
    exact ⟨rr, by rw [oneGo, hrr]⟩
  | succ f ih =>
    intro attempt t acc hle
    rw [oneGo]
    cases hs : oneStep env ra item attempt (some t) acc with
    | done rr => exact ⟨rr, rfl⟩
    | retry err =>
      have hlt := (oneStep_retry_facts env ra item attempt _ acc err hs).1
      obtain ⟨rr, hrr⟩ := ih (attempt + 1) (min (t * 2) (τ0 * 5)) _ (by omega)
      exact ⟨rr, by simp [escalate]; exact hrr⟩

theorem oneGo_retry0_isOk {α β : Type} (env : Nat → AttemptRes β)
    (ts : Option ℚ) (base cap : ℚ) (j : Nat → ℚ) (item : α)
    (fuel attempt : Nat) (ct : Option ℚ) (acc : ℚ) :
    ∃ rr, oneGo env 0 ts base cap j item fuel attempt ct acc = .ok rr := by
  obtain ⟨rr, hrr⟩ := oneStep_done_of_le env 0 item attempt ct acc (Nat.zero_le _)
  cases fuel <;> exact ⟨rr, by rw [oneGo, hrr]⟩

theorem oneGo_none_timeout {α β : Type} (env : Nat → AttemptRes β) (ra : Nat)
    (ts : Option ℚ) (base cap : ℚ) (j : Nat → ℚ) (item : α)
    (fuel attempt : Nat) (acc : ℚ)
    (hf : (env attempt).isFail = true) (hlt : attempt < ra) :
    oneGo env ra ts base cap j item fuel attempt none acc
      = .error typeErrorMsg := by
  have hs := oneStep_retry_of_fail env ra item attempt none acc hf hlt
  cases fuel <;> rw [oneGo, hs] <;> rfl

theorem oneStep_giveup {α β : Type} (env : Nat → AttemptRes β) (ra : Nat)
    (item : α) (attempt : Nat) (ct : Option ℚ) (acc : ℚ)
    (hf : (env attempt).isFail = true) (hle : ra ≤ attempt) :
    oneStep env ra item attempt ct acc
      = .done ⟨⟨item, none, some (errOfAttempt ct (env attempt))⟩, acc,
               attempt + 1⟩ := by
  unfold oneStep
  cases henv : env attempt <;>
    simp [AttemptRes.isFail, henv, hle] at hf ⊢

theorem oneGo_all_fail {α β : Type} (env : Nat → AttemptRes β) (ra : Nat)
    (τ base cap : ℚ) (j : Nat → ℚ) (item : α) :
    ∀ (fuel attempt : Nat) (acc : ℚ), ra - attempt ≤ fuel → attempt ≤ ra →
      (∀ a, attempt ≤ a → a ≤ ra → (env a).isFail = true) →
      oneGo env ra (some τ) base cap j item fuel attempt
          (some (escalCT τ attempt)) acc
        = .ok ⟨⟨item, none, some (errOfAttempt (some (escalCT τ ra)) (env ra))⟩,
               acc + ∑ a in Finset.Ico attempt ra,
                 (min cap (base * 2 ^ a) + j a), ra + 1⟩ := by
  intro fuel
  induction fuel with
  | zero =>
    intro attempt acc hfuel hle hfail
    have heq : attempt = ra := by omega
    subst heq
    rw [oneGo, oneStep_giveup env attempt item attempt _ acc
      (hfail attempt le_rfl le_rfl) le_rfl]
    simp
  | succ f ih =>
    intro attempt acc hfuel hle hfail
    by_cases hend : ra ≤ attempt
    · have heq : attempt = ra := by omega
      subst heq
      rw [oneGo, oneStep_giveup env attempt item attempt _ acc
        (hfail attempt le_rfl le_rfl) le_rfl]
      simp
    · have hlt : attempt < ra := by omega
      rw [oneGo, oneStep_retry_of_fail env ra item attempt _ acc
        (hfail attempt le_rfl (by omega)) hlt]
      show oneGo env ra (some τ) base cap j item f (attempt + 1)
          (some (min (escalCT τ attempt * 2) (τ * 5)))
          (acc + (min cap (base * 2 ^ attempt) + j attempt)) = _
      have hct : min (escalCT τ attempt * 2) (τ * 5) = escalCT τ (attempt + 1) := rfl
      rw [hct, ih (attempt + 1) _ (by omega) (by omega)
        (fun a h1 h2 => hfail a (by omega) h2)]
      rw [Finset.sum_eq_sum_Ico_succ_bot hlt
        (fun a => min cap (base * 2 ^ a) + j a)]
      simp only [Except.ok.injEq, RunResult.mk.injEq]
      refine ⟨trivial, by ring, trivial⟩

theorem oneGo_fail_then_ok {α β : Type} (env : Nat → AttemptRes β)
    (τ base cap : ℚ) (j : Nat → ℚ) (item : α) (r : β)
    (h0 : (env 0).isFail = true) (h1 : env 1 = .ok r) :
    analyze_one env 1 (some τ) base cap j item
      = .ok ⟨⟨item, some r, none⟩, 0 + (min cap (base * 2 ^ 0) + j 0), 2⟩ := by
  unfold analyze_one
  rw [oneGo, oneStep_retry_of_fail env 1 item 0 _ 0 h0 (by omega)]
  simp only [escalate]
  rw [oneGo]
  unfold oneStep
  rw [h1]

theorem sequenceE_map_ok {ε γ : Type} (l : List γ) :
    sequenceE (l.map (Except.ok (ε := ε))) = .ok l := by
  induction l with
  | nil => rfl
  | cons x xs ih => simp [sequenceE, ih]

theorem sequenceE_error_of_mem {ε γ : Type} (l : List (Except ε γ)) (e : ε)
    (hmem : Except.error e ∈ l) : ∃ e2, sequenceE l = .error e2 := by
  induction l with
  | nil => cases hmem
  | cons x xs ih =>
    cases x with
    | error e3 => exact ⟨e3, rfl⟩
    | ok v =>
      rcases List.mem_cons.mp hmem with h | h
      · cases h
      · obtain ⟨e2, he2⟩ := ih h
        exact ⟨e2, by simp [sequenceE, he2]⟩

theorem gather_assemble_length {γ : Type} (order : List Nat) (task : Nat → γ) :
    ∀ acc : List (Option γ),
      (order.foldl (fun acc j => acc.set j (some (task j))) acc).length
        = acc.length := by
  induction order with
  | nil => intro acc; rfl
  | cons j0 rest ih =>
    intro acc
    simp only [List.foldl_cons]
    rw [ih]
    exact List.length_set acc j0 _

theorem gather_assemble_notMem {γ : Type} (order : List Nat) (task : Nat → γ)
    (j : Nat) (hj : j ∉ order) :
    ∀ acc : List (Option γ),
      (order.foldl (fun acc i => acc.set i (some (task i))) acc)[j]?
        = acc[j]? := by
  induction order with
  | nil => intro acc; rfl
  | cons j0 rest ih =>
    intro acc
    have hne : j0 ≠ j := fun h => hj (h ▸ List.mem_cons_self j0 rest)
    simp only [List.foldl_cons]
    rw [ih (fun h => hj (List.mem_cons_of_mem _ h))]
    exact List.getElem?_set_ne hne

theorem gather_assemble_mem {γ : Type} (order : List Nat) (task : Nat → γ)
    (j : Nat) (hj : j ∈ order) :
    ∀ acc : List (Option γ), j < acc.length →
      (order.foldl (fun acc i => acc.set i (some (task i))) acc)[j]?
        = some (some (task j)) := by
  induction order with
  | nil => cases hj
  | cons j0 rest ih =>
    intro acc hlen
    simp only [List.foldl_cons]
    by_cases hmem : j ∈ rest
    · exact ih hmem _ (by simpa using hlen)
    · have heq : j0 = j := by
        rcases List.mem_cons.mp hj with h | h
        · exact h.symm
        · exact absurd h hmem
      subst heq
      rw [gather_assemble_notMem rest task j0 hmem]
      simp [List.getElem?_set_self hlen]

theorem gather_assemble_perm {γ : Type} (n : Nat) (order : List Nat)
    (task : Nat → γ) (h : order.Perm (List.range n)) :
    gather_assemble n order task
      = (List.range n).map (fun i => some (task i)) := by
  apply List.ext_getElem?
  intro i
  by_cases hi : i < n
  · have hmem : i ∈ order := h.mem_iff.mpr (List.mem_range.mpr hi)
    rw [gather_assemble]
    rw [gather_assemble_mem order task i hmem _ (by simpa using hi)]
    rw [List.getElem?_map, List.getElem?_range hi]
    rfl
  · have h1 : (gather_assemble n order task).length = n := by
      rw [gather_assemble, gather_assemble_length]
      simp
    rw [List.getElem?_eq_none (by omega), List.getElem?_eq_none (by simp; omega)]

theorem analyze_one_isOk {α β : Type} (env : Nat → AttemptRes β) (ra : Nat)
    (ts : Option ℚ) (base cap : ℚ) (j : Nat → ℚ) (item : α)
    (hT : ts.isSome ∨ ra = 0) :
    ∃ rr, analyze_one env ra ts base cap j item = .ok rr := by
  rcases hT with hs | hz
  · obtain ⟨τ0, hτ⟩ := Option.isSome_iff_exists.mp hs
    subst hτ
    exact oneGo_isOk env ra τ0 base cap j item ra 0 τ0 0 (by omega)
  · subst hz
    exact oneGo_retry0_isOk env ts base cap j item 0 0 ts 0

theorem outcomeOfIdx_input {α β : Type} (env : Nat → Nat → AttemptRes β)
    (ra : Nat) (ts : Option ℚ) (base cap : ℚ) (j : Nat → Nat → ℚ)
    (i : Nat) (item : α) :
    (outcomeOfIdx env ra ts base cap j i item).input = item := by
  unfold outcomeOfIdx
  cases h : analyze_one (env i) ra ts base cap (j i) item with
  | ok rr =>
    exact (oneGo_ok_bound (env i) ra ts base cap (j i) item ra 0 ts 0 rr h).2
  | error e => rfl

theorem analyze_many_ok_shape {α β : Type} (env : Nat → Nat → AttemptRes β)
    (mc : Nat) (rps : ℚ) (ts : Option ℚ) (ra : Nat) (base cap : ℚ)
    (j : Nat → Nat → ℚ) (items : List α) (hT : ts.isSome ∨ ra = 0) :
    analyze_many env mc rps ts ra base cap j items
      = .ok (items.enum.map fun p => outcomeOfIdx env ra ts base cap j p.1 p.2) := by
  unfold analyze_many
  have hall : ∀ p ∈ items.enum,
      (analyze_one (env p.1) ra ts base cap (j p.1) p.2).map (·.outcome)
        = Except.ok (outcomeOfIdx env ra ts base cap j p.1 p.2) := by
    intro p _
    obtain ⟨rr, hrr⟩ := analyze_one_isOk (env p.1) ra ts base cap (j p.1) p.2 hT
    rw [hrr, outcomeOfIdx, hrr]
    rfl
  rw [List.map_congr_left hall]
  show sequenceE (List.map (Except.ok ∘ fun p => outcomeOfIdx env ra ts base cap j p.1 p.2) items.enum) = _
  rw [← List.map_map]
  exact sequenceE_map_ok _

/-- C3: for every input list, `analyze_many` returns exactly one outcome per
input item, the `i`-th outcome belongs to the `i`-th input item, and
assembling task results by task index in *any* completion order reproduces
the same list (the precondition — a configured per-item timeout or no
retries — is the one identified by C10). -/
theorem C3_analyze_many_index_aligned {α β : Type}
    (env : Nat → Nat → AttemptRes β) (mc : Nat) (rps : ℚ) (ts : Option ℚ)
    (ra : Nat) (base cap : ℚ) (j : Nat → Nat → ℚ) (items : List α)
    (hT : ts.isSome ∨ ra = 0) :
    ∃ outs, analyze_many env mc rps ts ra base cap j items = .ok outs
      ∧ outs.length = items.length
      ∧ (∀ i (hi : i < items.length) (ho : i < outs.length),
          (outs.get ⟨i, ho⟩).input = items.get ⟨i, hi⟩)
      ∧ ∀ (order : List Nat) (d : Outcome α β),
          order.Perm (List.range items.length) →
          gather_assemble items.length order (fun i2 => outs.getD i2 d)
            = outs.map some := by
  refine ⟨items.enum.map fun p => outcomeOfIdx env ra ts base cap j p.1 p.2,
    analyze_many_ok_shape env mc rps ts ra base cap j items hT, by simp, ?_, ?_⟩
  · intro i hi ho
    simp only [List.get_eq_getElem, List.getElem_map]
    have hlen2 : i < items.enum.length := by simpa using hi
    have h2 : items.enum[i] = (0 + i, items[i]) := by
      simp
    rw [h2]
    exact outcomeOfIdx_input env ra ts base cap j _ _
  · intro order d hperm
    set outs := items.enum.map fun p => outcomeOfIdx env ra ts base cap j p.1 p.2
      with houts
    have hlen : outs.length = items.length := by simp [houts]
    rw [gather_assemble_perm items.length order _ hperm]
    apply List.ext_getElem?
    intro i
    by_cases hi : i < items.length
    · rw [List.getElem?_map, List.getElem?_range hi, List.getElem?_map,
        List.getElem?_eq_getElem (by omega)]
      simp [List.getD_eq_getElem?_getD, List.getElem?_eq_getElem (show i < outs.length by omega)]
    · rw [List.getElem?_eq_none (by simp; omega), List.getElem?_eq_none (by simp [hlen]; omega)]

/-- C4: per item the dispatcher makes at most `retry_attempts` retries beyond
the first call; when every attempt fails it returns an error outcome carrying
the last attempt's failure reason, having slept
`min(backoff_max, backoff_base * 2^attempt) + jitter(attempt)` before each
retry; and with `retry_attempts = 1` and a service failing once then
succeeding, the outcome is successful with total backoff at least the base
(given `base ≤ cap` and nonnegative jitter). -/
theorem C4_retry_backoff {α β : Type} (env : Nat → AttemptRes β) (ra : Nat)
    (τ base cap : ℚ) (j : Nat → ℚ) (item : α) :
    (∃ rr, analyze_one env ra (some τ) base cap j item = .ok rr
        ∧ rr.attempts_used ≤ ra + 1 ∧ rr.outcome.input = item)
    ∧ ((∀ a, a ≤ ra → (env a).isFail = true) →
        analyze_one env ra (some τ) base cap j item
          = .ok ⟨⟨item, none,
                  some (errOfAttempt (some (escalCT τ ra)) (env ra))⟩,
                 ∑ a in Finset.range ra, (min cap (base * 2 ^ a) + j a),
                 ra + 1⟩)
    ∧ (ra = 1 → (env 0).isFail = true → 0 ≤ j 0 → base ≤ cap →
        ∀ r, env 1 = .ok r →
        ∃ rr, analyze_one env 1 (some τ) base cap j item = .ok rr
          ∧ rr.outcome.result = some r ∧ base ≤ rr.sleep_total) := by
  refine ⟨?_, ?_, ?_⟩
  · obtain ⟨rr, hrr⟩ := analyze_one_isOk env ra (some τ) base cap j item
      (Or.inl rfl)
    have hb := oneGo_ok_bound env ra (some τ) base cap j item ra 0 (some τ) 0
      rr hrr
    exact ⟨rr, hrr, by omega, hb.2⟩
  · intro hfail
    have h0 : (0 : ℚ) + ∑ a in Finset.Ico 0 ra, (min cap (base * 2 ^ a) + j a)
        = ∑ a in Finset.range ra, (min cap (base * 2 ^ a) + j a) := by
      rw [Finset.range_eq_Ico]; ring
    have hmain := oneGo_all_fail env ra τ base cap j item ra 0 0
      (by omega) (Nat.zero_le _) (fun a _ h2 => hfail a h2)
    unfold analyze_one
    rw [← h0]
    exact hmain
  · intro hra h0 hj0 hcb r h1
    refine ⟨⟨⟨item, some r, none⟩, 0 + (min cap (base * 2 ^ 0) + j 0), 2⟩,
      oneGo_fail_then_ok env τ base cap j item r h0 h1, rfl, ?_⟩
    show base ≤ 0 + (min cap (base * 2 ^ 0) + j 0)
    have hmin : min cap (base * 2 ^ 0) = base := by
      rw [pow_zero, mul_one]
      exact min_eq_right hcb
    rw [hmin]
    linarith

/-- C4 witness: a service that raises once and then returns a record, with
`retry_attempts = 1`, base backoff 3/2, cap 8, zero jitter. -/
theorem C4_retry_backoff_witness :
    ∃ rr, analyze_one (fun a => if a = 0 then AttemptRes.exc "boom"
        else AttemptRes.ok (42 : Nat)) 1 (some 120) (3 / 2 : ℚ) 8
        (fun _ => 0) (7 : Nat) = .ok rr
      ∧ rr.outcome.result = some 42 ∧ (3 / 2 : ℚ) ≤ rr.sleep_total :=
  (C4_retry_backoff (fun a => if a = 0 then AttemptRes.exc "boom"
      else AttemptRes.ok (42 : Nat)) 1 120 (3 / 2) 8 (fun _ => 0) 7).2.2
    rfl rfl le_rfl (by norm_num) 42 rfl

/-- C10: with `timeout_sec=None` and `retry_attempts ≥ 1`, one item whose
first attempt fails transiently makes the whole `analyze_many` call raise
(`None * 2` in the timeout escalation), so no outcome list is returned. -/
theorem C10_none_timeout_raises {α β : Type} (env : Nat → Nat → AttemptRes β)
    (mc : Nat) (rps : ℚ) (ra : Nat) (base cap : ℚ) (j : Nat → Nat → ℚ)
    (items : List α) (i0 : Nat) (hi : i0 < items.length)
    (hra : 1 ≤ ra) (hfail : (env i0 0).isFail = true) :
    ∃ e, analyze_many env mc rps none ra base cap j items = .error e := by
  unfold analyze_many
  have hlen2 : i0 < items.enum.length := by simpa using hi
  have h2 : items.enum[i0] = (i0, items[i0]) := by
    simp
  have htask : (analyze_one (env i0) ra none base cap (j i0) items[i0]).map
      (·.outcome) = Except.error typeErrorMsg := by
    unfold analyze_one
    rw [oneGo_none_timeout (env i0) ra none base cap (j i0) _ ra 0 0 hfail
      (by omega)]
    rfl
  have h5 : (items.enum.map fun p =>
      (analyze_one (env p.1) ra none base cap (j p.1) p.2).map
        (·.outcome))[i0]? = some (Except.error typeErrorMsg) := by
    rw [List.getElem?_map, List.getElem?_eq_getElem hlen2, h2]
    show some ((analyze_one (env i0) ra none base cap (j i0) items[i0]).map
      (·.outcome)) = _
    rw [htask]
  exact sequenceE_error_of_mem _ typeErrorMsg (List.getElem?_mem h5)

/-- C10 witness: one item, first attempt raises, `retry_attempts = 1`,
timeout disabled. -/
theorem C10_none_timeout_raises_witness :
    ∃ e, analyze_many (fun _ _ => (AttemptRes.exc "conn reset" : AttemptRes Nat))
      80 8 none 1 (3 / 2 : ℚ) 8 (fun _ _ => 0) [(5 : Nat)] = .error e :=
  C10_none_timeout_raises (fun _ _ => (AttemptRes.exc "conn reset" : AttemptRes Nat))
    80 8 1 (3 / 2) 8 (fun _ _ => 0) [5] 0 (by decide) le_rfl rfl

/-- C3 witness: two items against an always-succeeding service. -/
theorem C3_analyze_many_index_aligned_witness :
    ∃ outs, analyze_many (fun _ _ => AttemptRes.ok (0 : Nat)) 80 8 (some 120) 1
        (3 / 2 : ℚ) 8 (fun _ _ => 0) [(10 : Nat), 20] = .ok outs
      ∧ outs.length = [(10 : Nat), 20].length
      ∧ (∀ i (hi : i < [(10 : Nat), 20].length) (ho : i < outs.length),
          (outs.get ⟨i, ho⟩).input = [(10 : Nat), 20].get ⟨i, hi⟩)
      ∧ ∀ (order : List Nat) (d : Outcome Nat Nat),
          order.Perm (List.range [(10 : Nat), 20].length) →
          gather_assemble [(10 : Nat), 20].length order (fun i2 => outs.getD i2 d)
            = outs.map some :=
  C3_analyze_many_index_aligned (fun _ _ => AttemptRes.ok (0 : Nat)) 80 8
    (some 120) 1 (3 / 2) 8 (fun _ _ => 0) [10, 20] (Or.inl rfl)

/-- C8: the content fingerprint is deterministic, invariant under
leading/trailing whitespace of either argument, and is by definition the
SHA-256 hex digest of `strip(number) + "|" + strip(text)`. -/
theorem C8_fingerprint :
    (∀ n t n2 t2, n = n2 → t = t2 → get_hash n t = get_hash n2 t2)
    ∧ get_hash "A1/24 " " text " = get_hash "A1/24" "text"
    ∧ ∀ n t, get_hash n t
        = sha256hex (utf8Bytes (pyStrip n ++ "|" ++ pyStrip t)) := by
  refine ⟨fun n t n2 t2 hn ht => by rw [hn, ht], ?_, fun n t => rfl⟩
  show sha256hex (utf8Bytes (pyStrip "A1/24 " ++ "|" ++ pyStrip " text "))
    = sha256hex (utf8Bytes (pyStrip "A1/24" ++ "|" ++ pyStrip "text"))
  have h1 : pyStrip "A1/24 " = pyStrip "A1/24" := by decide
  have h2 : pyStrip " text " = pyStrip "text" := by decide
  rw [h1, h2]

/-- C8 witness: determinism instantiated at the example pair. -/
theorem C8_fingerprint_witness :
    get_hash "A1/24" "text" = get_hash "A1/24" "text" :=
  C8_fingerprint.1 "A1/24" "text" "A1/24" "text" rfl rfl

/-- C1: in `save_results_batch` a per-item failure is rolled back to the
item's savepoint and the item skipped: the batch produces exactly the state
of the batch with that item removed, every sibling still being attempted,
and the outer transaction commits (the function is total).  In particular,
in the concrete batch of 5 outcomes whose item 3 violates the
`(notam_number, issue_time)` uniqueness constraint, items 1, 2, 4, 5 are
persisted and item 3 is skipped. -/
theorem C1_batch_savepoint_isolation :
    (∀ (db : Db) (batch : List (Outcome Item Notam_Analysis)) (oa : Bool)
        (ids : List Nat) (k : Nat) (hk : k < batch.length)
        (res : Notam_Analysis) (e : DbError),
        (batch.get ⟨k, hk⟩).result = some res →
        save_to_db (save_results_batch db (batch.take k) oa ids) res
            (batch.get ⟨k, hk⟩).input.icao_message
            (batch.get ⟨k, hk⟩).input.notam_number
            (batch.get ⟨k, hk⟩).input.raw_hash
            ((batch.get ⟨k, hk⟩).input.airport.getD "Unknown") = .error e →
        save_results_batch db batch oa ids
          = save_results_batch db (batch.take k ++ batch.drop (k + 1)) oa ids)
    ∧ (save_results_batch emptyDb exBatchC1).notams.map (·.raw_hash)
        = ["h1", "h2", "h4", "h5"] := by
  constructor
  · intro db batch oa ids k hk res e hres herr
    have hstep : save_step (save_results_batch db (batch.take k) oa ids)
        (batch.get ⟨k, hk⟩) = save_results_batch db (batch.take k) oa ids := by
      simp only [save_step, hres, herr]
    simp only [save_results_batch] at hstep ⊢
    conv_lhs => rw [← List.take_append_drop k batch]
    rw [List.foldl_append, List.foldl_append, List.drop_eq_getElem_cons hk,
      List.foldl_cons, show batch[k] = batch.get ⟨k, hk⟩ from rfl, hstep]
  · rfl

/-- C1 witness: the scenario batch itself — item 3 (index 2) fails with an
integrity error at its savepoint, and the batch result equals the batch
without it. -/
theorem C1_batch_savepoint_isolation_witness :
    (exBatchC1.get ⟨2, by decide⟩).result
        = some (mkResult "A1" "2025-01-01T00:00:00Z")
    ∧ save_results_batch emptyDb exBatchC1 false []
        = save_results_batch emptyDb (exBatchC1.take 2 ++ exBatchC1.drop 3)
            false [] :=
  ⟨rfl, C1_batch_savepoint_isolation.1 emptyDb exBatchC1 false [] 2 (by decide)
     (mkResult "A1" "2025-01-01T00:00:00Z") .integrity rfl rfl⟩

/-- C2 counterexample: re-persisting the same `raw_hash` with a different
primary airport code does NOT fully replace the `runways` child collection —
`save_to_db` deletes old runway rows only for the *current* primary airport
(`filter_by(notam_id=..., airport_code=primary)`), so the first save's
runway row survives the second save.  Full replacement would leave exactly
`runwaysOf resRwy09 1 "BBBB"`; instead the stale `("AAAA", 09)` row is still
present. -/
theorem C2_counterexample :
    exDbRwy.notams.map (·.raw_hash) = ["H"]
    ∧ (⟨1, "AAAA", 9, none⟩ : RunwayRow) ∈ exDbRwy.runways
    ∧ exDbRwy.runways.filter (fun r => r.notam_id == 1)
        ≠ runwaysOf resRwy09 1 "BBBB" := by
  refine ⟨by rfl, ?_, ?_⟩
  · show (⟨1, "AAAA", 9, none⟩ : RunwayRow)
      ∈ [(⟨1, "AAAA", 9, none⟩ : RunwayRow), ⟨1, "BBBB", 9, none⟩]
    exact List.mem_cons_self _ _
  · intro hcontra
    have : ([(⟨1, "AAAA", 9, none⟩ : RunwayRow), ⟨1, "BBBB", 9, none⟩]
        : List RunwayRow) = [⟨1, "BBBB", 9, none⟩] := hcontra
    simp at this

theorem replace_filter {γ : Type} (old new : List γ) (p : γ → Bool)
    (h : ∀ x ∈ new, p x = true) :
    ((old.filter fun x => !(p x)) ++ new).filter p = new := by
  rw [List.filter_append, List.filter_filter]
  have h1 : old.filter (fun a => p a && !(p a)) = [] := by
    rw [List.filter_eq_nil_iff]
    intro a _
    simp
  rw [h1, List.nil_append, List.filter_eq_self.mpr h]

theorem replace_filter_compl {γ : Type} (old new : List γ) (p q : γ → Bool)
    (himp : ∀ x, q x = true → p x = false)
    (hnew : ∀ x ∈ new, q x = false) :
    ((old.filter fun x => !(p x)) ++ new).filter q = old.filter q := by
  rw [List.filter_append, List.filter_filter]
  have h1 : new.filter q = [] := by
    rw [List.filter_eq_nil_iff]
    intro a ha
    simp [hnew a ha]
  rw [h1, List.append_nil]
  apply List.filter_congr
  intro a _
  by_cases hq : q a = true
  · simp [hq, himp a hq]
  · have hq2 : q a = false := by
      cases hqa : q a
      · rfl
      · exact absurd hqa hq
    simp [hq2]

theorem count_le_one_of_nodup_map {γ : Type} (f : γ → String) :
    ∀ (l : List γ), (l.map f).Nodup → ∀ h : String,
      (l.filter fun x => f x == h).length ≤ 1 := by
  intro l
  induction l with
  | nil => intro _ h; simp
  | cons x xs ih =>
    intro hn h
    rw [List.map_cons, List.nodup_cons] at hn
    by_cases hx : (f x == h) = true
    · have hxeq : f x = h := by simpa using hx
      have hrest : xs.filter (fun y => f y == h) = [] := by
        rw [List.filter_eq_nil_iff]
        intro y hy hyh
        have : f y = h := by simpa using hyh
        exact hn.1 (hxeq ▸ this ▸ List.mem_map_of_mem f hy)
      simp [List.filter_cons, hx, hrest]
    · simp only [List.filter_cons, hx, Bool.false_eq_true, if_false]
      exact ih hn.2 h

theorem phasesOf_id (result : Notam_Analysis) (nid : Nat) :
    ∀ x ∈ phasesOf result nid, (x.notam_id == nid) = true := by
  intro x hx
  obtain ⟨p, _, rfl⟩ := List.mem_map.mp hx
  simp

theorem obstaclesOf_id (result : Notam_Analysis) (nid : Nat) :
    ∀ x ∈ obstaclesOf result nid, (x.notam_id == nid) = true := by
  intro x hx
  unfold obstaclesOf at hx
  cases hee : result.extracted_elements with
  | none => rw [hee] at hx; cases hx
  | some ee =>
    rw [hee] at hx
    obtain ⟨o, _, rfl⟩ := List.mem_map.mp hx
    simp

theorem taxiwaysOf_id (result : Notam_Analysis) (nid : Nat) (ap : String) :
    ∀ x ∈ taxiwaysOf result nid ap, (x.notam_id == nid) = true := by
  intro x hx
  unfold taxiwaysOf at hx
  cases hee : result.extracted_elements with
  | none => rw [hee] at hx; cases hx
  | some ee =>
    rw [hee] at hx
    obtain ⟨t, _, ht⟩ := List.mem_filterMap.mp hx
    by_cases hz : (t == "") = true
    · rw [if_pos hz] at ht; cases ht
    · rw [if_neg hz] at ht
      cases ht
      simp

theorem proceduresOf_id (result : Notam_Analysis) (nid : Nat) (ap : String) :
    ∀ x ∈ proceduresOf result nid ap, (x.notam_id == nid) = true := by
  intro x hx
  unfold proceduresOf at hx
  cases hee : result.extracted_elements with
  | none => rw [hee] at hx; cases hx
  | some ee =>
    rw [hee] at hx
    obtain ⟨t, _, ht⟩ := List.mem_filterMap.mp hx
    by_cases hz : (t == "") = true
    · rw [if_pos hz] at ht; cases ht
    · rw [if_neg hz] at ht
      cases ht
      simp

theorem runwaysOf_fields (result : Notam_Analysis) (nid : Nat) (ap : String) :
    ∀ x ∈ runwaysOf result nid ap, x.notam_id = nid ∧ x.airport_code = ap := by
  intro x hx
  unfold runwaysOf at hx
  cases hee : result.extracted_elements with
  | none => rw [hee] at hx; cases hx
  | some ee =>
    rw [hee] at hx
    obtain ⟨t, _, ht⟩ := List.mem_filterMap.mp hx
    cases hp : parse_runway_id t with
    | mk fst snd =>
      rw [hp] at ht
      cases fst with
      | none => cases ht
      | some num => cases ht; exact ⟨rfl, rfl⟩

theorem runwayCondsOf_id (result : Notam_Analysis) (nid : Nat) (ap : String) :
    ∀ x ∈ runwayCondsOf result nid ap, (x.notam_id == nid) = true := by
  intro x hx
  unfold runwayCondsOf at hx
  cases hee : result.extracted_elements with
  | none => rw [hee] at hx; cases hx
  | some ee =>
    rw [hee] at hx
    obtain ⟨t, _, ht⟩ := List.mem_filterMap.mp hx
    cases hp : parse_runway_id t.runway_id with
    | mk fst snd =>
      rw [hp] at ht
      cases fst with
      | none => cases ht
      | some num => cases ht; simp

theorem rowOf_id (result : Notam_Analysis) (rt num h ap : String) (nid : Nat) :
    (rowOf result rt num h ap nid).id = nid := rfl

theorem rowOf_raw_hash (result : Notam_Analysis) (rt num h ap : String)
    (nid : Nat) : (rowOf result rt num h ap nid).raw_hash = h := rfl

theorem save_to_db_ok_spec (db : Db) (result : Notam_Analysis)
    (rt num h ap : String) (hwf : DbWf db) (db2 : Db) (nid : Nat)
    (hsave : save_to_db db result rt num h ap = .ok (db2, nid)) :
    DbWf db2
    ∧ rowOf result rt num h ap nid ∈ db2.notams
    ∧ (∀ r ∈ db2.notams, r.raw_hash = h → r = rowOf result rt num h ap nid)
    ∧ (∀ r0, db.notams.find? (fun r => r.raw_hash == h) = some r0 →
         nid = r0.id ∧ db2.notams.length = db.notams.length
         ∧ db2.notams.map (·.id) = db.notams.map (·.id))
    ∧ (db.notams.find? (fun r => r.raw_hash == h) = none →
         nid = db.next_id ∧ db2.notams.length = db.notams.length + 1)
    ∧ db2.flight_phases.filter (fun p => p.notam_id == nid)
        = phasesOf result nid
    ∧ db2.taxiways.filter (fun p => p.notam_id == nid)
        = taxiwaysOf result nid ap
    ∧ db2.procedures.filter (fun p => p.notam_id == nid)
        = proceduresOf result nid ap
    ∧ db2.obstacles.filter (fun p => p.notam_id == nid)
        = obstaclesOf result nid
    ∧ db2.runway_conditions.filter (fun p => p.notam_id == nid)
        = runwayCondsOf result nid ap
    ∧ db2.runways.filter (fun r => r.notam_id == nid && r.airport_code == ap)
        = runwaysOf result nid ap
    ∧ db2.runways.filter (fun r => r.notam_id == nid && !(r.airport_code == ap))
        = db.runways.filter (fun r => r.notam_id == nid && !(r.airport_code == ap)) := by
  unfold save_to_db at hsave
  by_cases hc : save_conflict db result rt num h ap = true
  · rw [if_pos hc] at hsave
    exact absurd hsave (by simp)
  · rw [if_neg hc] at hsave
    have hpair : save_core db result rt num h ap = (db2, nid) :=
      Except.ok.inj hsave
    have hdb2 : db2 = (save_core db result rt num h ap).1 := by rw [hpair]
    have hnid : nid = (save_core db result rt num h ap).2 := by rw [hpair]
    subst hdb2
    subst hnid
    cases hfound : db.notams.find? (fun r => r.raw_hash == h) with
    | none =>
      -- insert path
      have hnoth : ∀ r ∈ db.notams, ¬((r.raw_hash == h) = true) :=
        List.find?_eq_none.mp hfound
      simp only [save_core, save_notams, hfound, Option.isSome_none,
        Bool.false_eq_true, if_false]
      refine ⟨⟨?_, ?_, ?_⟩, ?_, ?_, ?_, ?_, ?_, ?_, ?_, ?_, ?_, ?_, ?_⟩
      · rw [List.map_append, List.nodup_append]
        refine ⟨hwf.1, by simp, ?_⟩
        intro a ha hb
        obtain ⟨r, hr, rfl⟩ := List.mem_map.mp ha
        simp only [List.map_cons, List.map_nil, List.mem_cons,
          List.not_mem_nil, or_false] at hb
        exact hnoth r hr (by simp [hb, rowOf_raw_hash])
      · rw [List.map_append, List.nodup_append]
        refine ⟨hwf.2.1, by simp, ?_⟩
        intro a ha hb
        obtain ⟨r, hr, rfl⟩ := List.mem_map.mp ha
        simp only [List.map_cons, List.map_nil, List.mem_cons,
          List.not_mem_nil, or_false] at hb
        have := hwf.2.2 r hr
        rw [rowOf_id] at hb
        omega
      · dsimp only
        intro r hr
        rcases List.mem_append.mp hr with hold | hnew2
        · have := hwf.2.2 r hold
          omega
        · simp only [List.mem_cons, List.not_mem_nil, or_false] at hnew2
          rw [hnew2, rowOf_id]
          omega
      · exact List.mem_append.mpr (Or.inr (by simp))
      · intro r hr hhash
        rcases List.mem_append.mp hr with hold | hnew2
        · exact absurd (by simp [hhash]) (hnoth r hold)
        · simpa using hnew2
      · intro r0 hfind2
        simp at hfind2
      · intro _
        refine ⟨by dsimp only, by simp⟩
      · exact replace_filter _ _ _ (phasesOf_id result _)
      · exact replace_filter _ _ _ (taxiwaysOf_id result _ ap)
      · exact replace_filter _ _ _ (proceduresOf_id result _ ap)
      · exact replace_filter _ _ _ (obstaclesOf_id result _)
      · exact replace_filter _ _ _ (runwayCondsOf_id result _ ap)
      · refine replace_filter _ _ _ ?_
        intro x hx
        obtain ⟨h1, h2⟩ := runwaysOf_fields result _ ap x hx
        simp [h1, h2]
      · refine replace_filter_compl _ _ _ _ ?_ ?_
        · intro x hx
          simp only [Bool.and_eq_true, Bool.not_eq_true'] at hx
          simp [hx.1, hx.2]
        · intro x hx
          obtain ⟨h1, h2⟩ := runwaysOf_fields result _ ap x hx
          simp [h2]
    | some r0 =>
      have hr0mem : r0 ∈ db.notams := List.mem_of_find?_eq_some hfound
      have hr0hash : r0.raw_hash = h := by
        have := List.find?_some hfound
        simpa using this
      have hid_unique : ∀ r ∈ db.notams, r.id = r0.id → r = r0 := by
        intro r hr hid
        exact List.inj_on_of_nodup_map hwf.2.1 hr hr0mem hid
      have hhash_unique : ∀ r ∈ db.notams, r.raw_hash = h → r = r0 := by
        intro r hr hh
        exact List.inj_on_of_nodup_map hwf.1 hr hr0mem (hh.trans hr0hash.symm)
      simp only [save_core, save_notams, hfound, Option.isSome_some, if_true]
      have hmap_pointwise : ∀ r ∈ db.notams,
          (if (r.id == (rowOf result rt num h ap r0.id).id) = true
            then rowOf result rt num h ap r0.id else r).raw_hash
          = r.raw_hash := by
        intro r hr
        rw [rowOf_id]
        by_cases hi : (r.id == r0.id) = true
        · rw [if_pos hi]
          have hre : r = r0 := hid_unique r hr (by simpa using hi)
          rw [rowOf_raw_hash, hre, hr0hash]
        · rw [if_neg hi]
      have hidmap : (db.notams.map (fun r =>
          if r.id == (rowOf result rt num h ap r0.id).id
          then rowOf result rt num h ap r0.id else r)).map (·.id)
          = db.notams.map (·.id) := by
        rw [List.map_map]
        apply List.map_congr_left
        intro r _
        simp only [Function.comp]
        rw [rowOf_id]
        by_cases hi : (r.id == r0.id) = true
        · rw [if_pos hi, rowOf_id]
          exact ((by simpa using hi : r.id = r0.id)).symm
        · rw [if_neg hi]
      have hhashmap : (db.notams.map (fun r =>
          if r.id == (rowOf result rt num h ap r0.id).id
          then rowOf result rt num h ap r0.id else r)).map (·.raw_hash)
          = db.notams.map (·.raw_hash) := by
        rw [List.map_map]
        apply List.map_congr_left
        intro r hr
        exact hmap_pointwise r hr
      refine ⟨⟨?_, ?_, ?_⟩, ?_, ?_, ?_, ?_, ?_, ?_, ?_, ?_, ?_, ?_, ?_⟩
      · rw [hhashmap]
        exact hwf.1
      · rw [hidmap]
        exact hwf.2.1
      · dsimp only
        intro r hr
        obtain ⟨r1, hr1, rfl⟩ := List.mem_map.mp hr
        rw [rowOf_id]
        by_cases hi : (r1.id == r0.id) = true
        · rw [if_pos hi, rowOf_id]
          exact hwf.2.2 r0 hr0mem
        · rw [if_neg hi]
          exact hwf.2.2 r1 hr1
      · refine List.mem_map.mpr ⟨r0, hr0mem, ?_⟩
        rw [rowOf_id]
        simp
      · intro r hr hhash
        obtain ⟨r1, hr1, rfl⟩ := List.mem_map.mp hr
        rw [rowOf_id] at hhash ⊢
        by_cases hi : (r1.id == r0.id) = true
        · rw [if_pos hi]
        · rw [if_neg hi] at hhash ⊢
          have hre : r1 = r0 := hhash_unique r1 hr1 hhash
          exact absurd (by simp [hre]) hi
      · intro r0' hfind2
        have hre : r0 = r0' := Option.some.inj hfind2
        subst hre
        exact ⟨rfl, by simp, hidmap⟩
      · intro hnone
        simp at hnone
      · exact replace_filter _ _ _ (phasesOf_id result _)
      · exact replace_filter _ _ _ (taxiwaysOf_id result _ ap)
      · exact replace_filter _ _ _ (proceduresOf_id result _ ap)
      · exact replace_filter _ _ _ (obstaclesOf_id result _)
      · exact replace_filter _ _ _ (runwayCondsOf_id result _ ap)
      · refine replace_filter _ _ _ ?_
        intro x hx
        obtain ⟨h1, h2⟩ := runwaysOf_fields result _ ap x hx
        simp [h1, h2]
      · refine replace_filter_compl _ _ _ _ ?_ ?_
        · intro x hx
          simp only [Bool.and_eq_true, Bool.not_eq_true'] at hx
          simp [hx.1, hx.2]
        · intro x hx
          obtain ⟨h1, h2⟩ := runwaysOf_fields result _ ap x hx
          simp [h2]

theorem save_to_db_commit_wf (db : Db) (c : SaveCall) (hwf : DbWf db) :
    DbWf (save_to_db_commit db c) := by
  unfold save_to_db_commit
  cases hs : save_to_db db c.result c.raw_text c.notam_number c.raw_hash
      c.airport_code with
  | ok pair =>
    exact (save_to_db_ok_spec db c.result c.raw_text c.notam_number c.raw_hash
      c.airport_code hwf pair.1 pair.2 (by rw [hs])).1
  | error e => exact hwf

theorem apply_saves_wf (db : Db) (calls : List SaveCall) (hwf : DbWf db) :
    DbWf (apply_saves db calls) := by
  induction calls generalizing db with
  | nil => exact hwf
  | cons c cs ih =>
    exact ih (save_to_db_commit db c) (save_to_db_commit_wf db c hwf)

/-- C2 (amended): serialized `save_to_db` calls keep at most one NoticeRecord
per `raw_hash`; a save of an existing hash updates the found record in place
(same id, same id list, same record count) and fully replaces the owned
child collections — flight phases, taxiways, procedures, obstacles, runway
conditions, and the airport/tag links carried on the row — while the
`runways` collection is replaced only for the current primary airport code
(rows recorded under a different primary airport survive, see
`C2_counterexample`); a save of a new hash inserts exactly one record. -/
theorem C2_upsert_unique_amended (db : Db) (result : Notam_Analysis)
    (rt num h ap : String) (hwf : DbWf db) :
    (∀ db2 nid, save_to_db db result rt num h ap = .ok (db2, nid) →
       DbWf db2
       ∧ rowOf result rt num h ap nid ∈ db2.notams
       ∧ (∀ r ∈ db2.notams, r.raw_hash = h → r = rowOf result rt num h ap nid)
       ∧ (∀ r0, db.notams.find? (fun r => r.raw_hash == h) = some r0 →
            nid = r0.id ∧ db2.notams.length = db.notams.length
            ∧ db2.notams.map (·.id) = db.notams.map (·.id))
       ∧ (db.notams.find? (fun r => r.raw_hash == h) = none →
            nid = db.next_id ∧ db2.notams.length = db.notams.length + 1)
       ∧ db2.flight_phases.filter (fun p => p.notam_id == nid)
           = phasesOf result nid
       ∧ db2.taxiways.filter (fun p => p.notam_id == nid)
           = taxiwaysOf result nid ap
       ∧ db2.procedures.filter (fun p => p.notam_id == nid)
           = proceduresOf result nid ap
       ∧ db2.obstacles.filter (fun p => p.notam_id == nid)
           = obstaclesOf result nid
       ∧ db2.runway_conditions.filter (fun p => p.notam_id == nid)
           = runwayCondsOf result nid ap
       ∧ db2.runways.filter
           (fun r => r.notam_id == nid && r.airport_code == ap)
           = runwaysOf result nid ap
       ∧ db2.runways.filter
           (fun r => r.notam_id == nid && !(r.airport_code == ap))
           = db.runways.filter
               (fun r => r.notam_id == nid && !(r.airport_code == ap)))
    ∧ ∀ (calls : List SaveCall) (h2 : String),
        ((apply_saves db calls).notams.filter
          (fun r => r.raw_hash == h2)).length ≤ 1 := by
  constructor
  · intro db2 nid hsave
    exact save_to_db_ok_spec db result rt num h ap hwf db2 nid hsave
  · intro calls h2
    exact count_le_one_of_nodup_map (fun r : NotamRow => r.raw_hash) _
      (apply_saves_wf db calls hwf).1 h2

/-- C2 witness: inserting one record into the empty store. -/
theorem C2_upsert_unique_amended_witness :
    DbWf emptyDb
    ∧ ∀ db2 nid, save_to_db emptyDb resRwy09 "m" "A1" "H" "AAAA"
        = .ok (db2, nid) →
      rowOf resRwy09 "m" "A1" "H" "AAAA" nid ∈ db2.notams := by
  have hwf : DbWf emptyDb := ⟨by simp [emptyDb], by simp [emptyDb],
    by intro r hr; simp [emptyDb] at hr⟩
  refine ⟨hwf, fun db2 nid hs => ?_⟩
  have hspec := (C2_upsert_unique_amended emptyDb resRwy09 "m" "A1" "H" "AAAA"
    hwf).1 db2 nid hs
  exact hspec.2.1

theorem filter_map_input_zip {α β : Type} :
    ∀ (pairs : List (Nat × α)) (f : Nat × α → Outcome α β),
      (∀ p ∈ pairs, (f p).input = p.2) →
      ((pairs.map f).filter (fun o => o.result.isNone)).map (·.input)
        = (((pairs.map Prod.snd).zip (pairs.map f)).filter
            (fun q => q.2.result.isNone)).map (·.1) := by
  intro pairs
  induction pairs with
  | nil => intro f _; rfl
  | cons p ps ih =>
    intro f hf
    have hf2 := fun q hq => hf q (List.mem_cons_of_mem p hq)
    simp only [List.map_cons, List.zip_cons_cons, List.filter_cons]
    dsimp only
    by_cases hres : (f p).result.isNone = true
    · rw [if_pos hres, if_pos hres]
      simp only [List.map_cons]
      rw [hf p (List.mem_cons_self p ps), ih f hf2]
    · rw [if_neg hres, if_neg hres]
      exact ih f hf2

/-- C5: in `run_pipeline`, the items submitted to pass 2 are exactly the
items whose pass-1 outcome was an error (as a zip-filter over the index-
aligned pass-1 results); pass 2 and its persistence appear in the trace only
after pass 1 has been analysed and persisted; and if no pass-1 item failed,
neither a pass-2 analysis nor a pass-2 save is ever invoked. -/
theorem C5_two_pass (env1 env2 : Nat → Nat → AttemptRes Notam_Analysis)
    (mc : Nat) (rps1 : ℚ) (ts : Option ℚ) (ra : Nat)
    (rc : Nat) (rps2 : ℚ) (ts2 : Option ℚ) (ra2 : Nat)
    (base cap : ℚ) (j1 j2 : Nat → Nat → ℚ) (oa : Bool) (ids : List Nat)
    (db : Db) (to_analyze : List Item)
    (hne : to_analyze ≠ [])
    (hT1 : ts.isSome ∨ ra = 0) (hT2 : ts2.isSome ∨ ra2 = 0) :
    ∃ results1 fails,
      analyze_many env1 mc rps1 ts ra base cap j1 to_analyze = .ok results1
      ∧ fails = (results1.filter (fun r => r.result.isNone)).map (·.input)
      ∧ fails = ((to_analyze.zip results1).filter
          (fun q => q.2.result.isNone)).map (·.1)
      ∧ (fails = [] →
          run_pipeline env1 env2 mc rps1 ts ra rc rps2 ts2 ra2 base cap j1 j2
              oa ids db to_analyze
            = .ok ([.analyze_pass 1 to_analyze, .save_batch results1 oa ids],
                   save_results_batch db results1 oa ids)
          ∧ ∀ xs, PipelineEvent.analyze_pass 2 xs
              ∉ [PipelineEvent.analyze_pass 1 to_analyze,
                 PipelineEvent.save_batch results1 oa ids])
      ∧ (fails ≠ [] →
          ∃ results2,
            analyze_many env2 rc rps2 ts2 ra2 base cap j2 fails = .ok results2
            ∧ run_pipeline env1 env2 mc rps1 ts ra rc rps2 ts2 ra2 base cap
                j1 j2 oa ids db to_analyze
              = .ok ([.analyze_pass 1 to_analyze,
                      .save_batch results1 oa ids,
                      .analyze_pass 2 fails,
                      .save_batch results2 false []],
                     save_results_batch (save_results_batch db results1 oa ids)
                       results2)) := by
  have hres1 := analyze_many_ok_shape env1 mc rps1 ts ra base cap j1
    to_analyze hT1
  have hne2 : to_analyze.isEmpty = false := by
    cases hcase : to_analyze with
    | nil => exact absurd hcase hne
    | cons a l => rfl
  set results1 := to_analyze.enum.map
    (fun p => outcomeOfIdx env1 ra ts base cap j1 p.1 p.2) with hr1
  refine ⟨results1, (results1.filter (fun r => r.result.isNone)).map (·.input),
    hres1, rfl, ?_, ?_, ?_⟩
  · rw [hr1]
    have hzip := filter_map_input_zip to_analyze.enum
      (fun p => outcomeOfIdx env1 ra ts base cap j1 p.1 p.2)
      (fun p _ => outcomeOfIdx_input env1 ra ts base cap j1 p.1 p.2)
    rw [hzip]
    have hsnd : to_analyze.enum.map Prod.snd = to_analyze :=
      List.enumFrom_map_snd 0 to_analyze
    rw [hsnd]
  · intro hfe
    have hempty : ((results1.filter (fun r => r.result.isNone)).map
        (·.input)).isEmpty = true := by
      rw [hfe]; rfl
    constructor
    · unfold run_pipeline
      rw [hres1]
      simp only [hne2, Bool.false_eq_true, if_false]
      simp only [hempty, if_true]
    · intro xs
      simp
  · intro hfne
    obtain ⟨results2, hres2⟩ :
        ∃ r2, analyze_many env2 rc rps2 ts2 ra2 base cap j2
          ((results1.filter (fun r => r.result.isNone)).map (·.input))
          = .ok r2 := by
      rcases hT2 with hs | hz
      · obtain ⟨τ2, hτ⟩ := Option.isSome_iff_exists.mp hs
        subst hτ
        exact ⟨_, analyze_many_ok_shape env2 rc rps2 (some τ2) ra2 base cap j2
          _ (Or.inl rfl)⟩
      · subst hz
        exact ⟨_, analyze_many_ok_shape env2 rc rps2 ts2 0 base cap j2
          _ (Or.inr rfl)⟩
    refine ⟨results2, hres2, ?_⟩
    unfold run_pipeline
    rw [hres1]
    simp only [hne2, Bool.false_eq_true, if_false]
    have hnonempty : ((results1.filter (fun r => r.result.isNone)).map
        (·.input)).isEmpty = false := by
      cases hcase : (results1.filter (fun r => r.result.isNone)).map (·.input) with
      | nil => exact absurd hcase hfne
      | cons a l => rfl
    simp only [hnonempty, Bool.false_eq_true, if_false]
    rw [hres2]

theorem save_to_db_failed_notams (db : Db) (result : Notam_Analysis)
    (rt num h ap : String) (db2 : Db) (nid : Nat)
    (hsave : save_to_db db result rt num h ap = .ok (db2, nid)) :
    db2.failed_notams = db.failed_notams := by
  unfold save_to_db at hsave
  by_cases hc : save_conflict db result rt num h ap = true
  · rw [if_pos hc] at hsave
    exact absurd hsave (by simp)
  · rw [if_neg hc] at hsave
    have hpair : save_core db result rt num h ap = (db2, nid) :=
      Except.ok.inj hsave
    have hdb2 : db2 = (save_core db result rt num h ap).1 := by rw [hpair]
    subst hdb2
    rfl

theorem save_step_failed_notams (s : Db) (r : Outcome Item Notam_Analysis) :
    (save_step s r).failed_notams = s.failed_notams := by
  unfold save_step
  cases hres : r.result with
  | none => rfl
  | some res =>
    show (match save_to_db s res r.input.icao_message r.input.notam_number
        r.input.raw_hash (r.input.airport.getD "Unknown") with
      | .ok (s2, _) => s2
      | .error _ => s).failed_notams = s.failed_notams
    cases hs : save_to_db s res r.input.icao_message r.input.notam_number
        r.input.raw_hash (r.input.airport.getD "Unknown") with
    | ok pair =>
      obtain ⟨s2, nid⟩ := pair
      exact save_to_db_failed_notams s res _ _ _ _ s2 nid hs
    | error e => rfl

theorem foldl_save_step_failed_notams :
    ∀ (batch : List (Outcome Item Notam_Analysis)) (db : Db),
      (batch.foldl save_step db).failed_notams = db.failed_notams := by
  intro batch
  induction batch with
  | nil => intro db; rfl
  | cons r rs ih =>
    intro db
    rw [List.foldl_cons, ih, save_step_failed_notams]

theorem save_results_batch_failed_notams
    (batch : List (Outcome Item Notam_Analysis)) (db : Db) (oa : Bool)
    (ids : List Nat) :
    (save_results_batch db batch oa ids).failed_notams = db.failed_notams := by
  unfold save_results_batch
  rw [foldl_save_step_failed_notams]
  by_cases hoa : oa = true
  · simp only [hoa, if_true]
    rfl
  · simp only [hoa, Bool.false_eq_true, if_false]
    by_cases hids : (!ids.isEmpty) = true
    · simp only [hids, if_true]
      rfl
    · simp only [hids, Bool.false_eq_true, if_false]

theorem run_pipeline_failed_notams
    (env1 env2 : Nat → Nat → AttemptRes Notam_Analysis)
    (mc : Nat) (rps1 : ℚ) (ts : Option ℚ) (ra : Nat)
    (rc : Nat) (rps2 : ℚ) (ts2 : Option ℚ) (ra2 : Nat)
    (base cap : ℚ) (j1 j2 : Nat → Nat → ℚ) (oa : Bool) (ids : List Nat)
    (db : Db) (to_analyze : List Item) (evs : List PipelineEvent) (dbF : Db)
    (hrun : run_pipeline env1 env2 mc rps1 ts ra rc rps2 ts2 ra2 base cap
      j1 j2 oa ids db to_analyze = .ok (evs, dbF)) :
    dbF.failed_notams = db.failed_notams := by
  unfold run_pipeline at hrun
  by_cases hni : to_analyze.isEmpty = true
  · rw [if_pos hni] at hrun
    have hpair := Except.ok.inj hrun
    injection hpair with h1 h2
    rw [← h2]
  · rw [if_neg hni] at hrun
    cases h1 : analyze_many env1 mc rps1 ts ra base cap j1 to_analyze with
    | error e =>
      rw [h1] at hrun
      exact absurd hrun (by simp)
    | ok results1 =>
      rw [h1] at hrun
      dsimp only at hrun
      by_cases hf : ((results1.filter (fun r => r.result.isNone)).map
          (·.input)).isEmpty = true
      · rw [if_pos hf] at hrun
        have hpair := Except.ok.inj hrun
        injection hpair with h1 h2
        rw [← h2]
        exact save_results_batch_failed_notams results1 db oa ids
      · rw [if_neg hf] at hrun
        cases h2 : analyze_many env2 rc rps2 ts2 ra2 base cap j2
            ((results1.filter (fun r => r.result.isNone)).map (·.input)) with
        | error e =>
          rw [h2] at hrun
          exact absurd hrun (by simp)
        | ok results2 =>
          rw [h2] at hrun
          dsimp only at hrun
          have hpair := Except.ok.inj hrun
          injection hpair with h3 h4
          rw [← h4]
          rw [save_results_batch_failed_notams results2 _ false []]
          exact save_results_batch_failed_notams results1 db oa ids

/-- C7 counterexample: a notice whose classification exhausts its retry
budget in both passes of `run_pipeline` (final outcome is the error
`"boom"`), yet the persistent store's `failed_notams` table is untouched —
`run_pipeline` only logs still-failed items (pipeline.py lines 154-156) and
never creates or updates a FailedNotice record, contradicting the claim's
"a FailedNotice quarantine record is created or updated". -/
theorem C7_counterexample :
    run_pipeline envBoom envBoom 80 8 (some 120) 1 16 3 (some 300) 2
        (3 / 2 : ℚ) 8 (fun _ _ => 0) (fun _ _ => 0) false [] emptyDb [itemX]
      = .ok ([.analyze_pass 1 [itemX],
              .save_batch [⟨itemX, none, some "boom"⟩] false [],
              .analyze_pass 2 [itemX],
              .save_batch [⟨itemX, none, some "boom"⟩] false []],
             emptyDb)
    ∧ emptyDb.failed_notams = [] := ⟨rfl, rfl⟩

/-- C7 (amended): `run_pipeline` never creates or updates FailedNotice
records — the quarantine store is unchanged by any run (still-failed items
are only logged); the deletion half holds in the retry service: after
`retry_failed_notams` (whose missing `get_failed_notams_for_retry` and
`cleanup_successful_retries` are modelled from the spec), every quarantined
row whose retried item succeeded is deleted, and the store equals the old
store filtered by the successful hashes. -/
theorem C7_quarantine_lifecycle :
    (∀ (env1 env2 : Nat → Nat → AttemptRes Notam_Analysis)
       (mc : Nat) (rps1 : ℚ) (ts : Option ℚ) (ra : Nat)
       (rc : Nat) (rps2 : ℚ) (ts2 : Option ℚ) (ra2 : Nat)
       (base cap : ℚ) (j1 j2 : Nat → Nat → ℚ) (oa : Bool) (ids : List Nat)
       (db : Db) (to_analyze : List Item) (evs : List PipelineEvent)
       (dbF : Db),
       run_pipeline env1 env2 mc rps1 ts ra rc rps2 ts2 ra2 base cap
           j1 j2 oa ids db to_analyze = .ok (evs, dbF) →
       dbF.failed_notams = db.failed_notams)
    ∧ ∀ (env : Nat → Nat → AttemptRes Notam_Analysis) (j : Nat → Nat → ℚ)
        (maxA : Nat) (db : Db) (bs : Nat)
        (results : List (Outcome Item Notam_Analysis)),
        (get_retry_stats maxA db.failed_notams).2.1 ≠ 0 →
        get_failed_notams_for_retry maxA db.failed_notams bs ≠ [] →
        analyze_many env 5 1 (some 240) 1 (3 / 2 : ℚ) 8 j
            ((get_failed_notams_for_retry maxA db.failed_notams bs).map
              failed_row_to_item) = .ok results →
        (retry_failed_notams env j maxA db bs).failed_notams
          = db.failed_notams.filter (fun r =>
              !(((results.filter (fun o => o.result.isSome)).map
                  (·.input.raw_hash)).contains r.raw_hash))
        ∧ ∀ r ∈ db.failed_notams,
            (((results.filter (fun o => o.result.isSome)).map
              (·.input.raw_hash)).contains r.raw_hash) = true →
            r ∉ (retry_failed_notams env j maxA db bs).failed_notams := by
  constructor
  · intro env1 env2 mc rps1 ts ra rc rps2 ts2 ra2 base cap j1 j2 oa ids db
      to_analyze evs dbF hrun
    exact run_pipeline_failed_notams env1 env2 mc rps1 ts ra rc rps2 ts2 ra2
      base cap j1 j2 oa ids db to_analyze evs dbF hrun
  · intro env j maxA db bs results hpend hrows hres
    have hmain : (retry_failed_notams env j maxA db bs).failed_notams
        = db.failed_notams.filter (fun r =>
            !(((results.filter (fun o => o.result.isSome)).map
                (·.input.raw_hash)).contains r.raw_hash)) := by
      unfold retry_failed_notams
      have hpend2 : ((get_retry_stats maxA db.failed_notams).2.1 == 0)
          = false := by
        cases hnum : (get_retry_stats maxA db.failed_notams).2.1 with
        | zero => exact absurd hnum hpend
        | succ n => rfl
      simp only [hpend2, Bool.false_eq_true, if_false]
      have hitems : ((get_failed_notams_for_retry maxA db.failed_notams
          bs).map failed_row_to_item).isEmpty = false := by
        cases hcase : get_failed_notams_for_retry maxA db.failed_notams bs with
        | nil => exact absurd hcase hrows
        | cons a l => rfl
      simp only [hitems, Bool.false_eq_true, if_false]
      rw [hres]
      show cleanup_successful_retries
          (save_results_batch db results false []).failed_notams
          ((results.filter (fun o => o.result.isSome)).map (·.input.raw_hash))
        = _
      rw [save_results_batch_failed_notams]
      rfl
    refine ⟨hmain, ?_⟩
    intro r hr hcont hmem
    rw [hmain] at hmem
    have hfil := List.mem_filter.mp hmem
    rw [hcont] at hfil
    simp at hfil

/-- C7 witness: one quarantined notice whose retry succeeds is removed from
the store by the retry service. -/
theorem C7_quarantine_lifecycle_witness :
    (get_retry_stats 3 exDbFailed.failed_notams).2.1 ≠ 0
    ∧ exFailedRow ∉ (retry_failed_notams
        (fun _ _ => AttemptRes.ok (mkResult "A1/24" "2025-01-01T00:00:00Z"))
        (fun _ _ => 0) 3 exDbFailed 20).failed_notams := by
  have hpend : (get_retry_stats 3 exDbFailed.failed_notams).2.1 ≠ 0 := by
    decide
  refine ⟨hpend, ?_⟩
  have hspec := (C7_quarantine_lifecycle.2
    (fun _ _ => AttemptRes.ok (mkResult "A1/24" "2025-01-01T00:00:00Z"))
    (fun _ _ => 0) 3 exDbFailed 20
    [⟨failed_row_to_item exFailedRow,
      some (mkResult "A1/24" "2025-01-01T00:00:00Z"), none⟩]
    hpend (by decide) rfl).2
  exact hspec exFailedRow (by decide) rfl

/-- C5 witness: one item, always-succeeding pass-1 service. -/
theorem C5_two_pass_witness :
    ∃ results1 fails,
      analyze_many
          (fun _ _ => AttemptRes.ok (mkResult "A" "2025-01-01T00:00:00Z"))
          80 8 (some 120) 1 (3 / 2 : ℚ) 8 (fun _ _ => 0) [itemX] = .ok results1
      ∧ fails = (results1.filter (fun r => r.result.isNone)).map (·.input)
      ∧ fails = (([itemX].zip results1).filter
          (fun q => q.2.result.isNone)).map (·.1)
      ∧ (fails = [] →
          run_pipeline
              (fun _ _ => AttemptRes.ok (mkResult "A" "2025-01-01T00:00:00Z"))
              envBoom 80 8 (some 120) 1 16 3 (some 300) 2 (3 / 2 : ℚ) 8
              (fun _ _ => 0) (fun _ _ => 0) false [] emptyDb [itemX]
            = .ok ([.analyze_pass 1 [itemX], .save_batch results1 false []],
                   save_results_batch emptyDb results1 false [])
          ∧ ∀ xs, PipelineEvent.analyze_pass 2 xs
              ∉ [PipelineEvent.analyze_pass 1 [itemX],
                 PipelineEvent.save_batch results1 false []])
      ∧ (fails ≠ [] →
          ∃ results2,
            analyze_many envBoom 16 3 (some 300) 2 (3 / 2 : ℚ) 8
              (fun _ _ => 0) fails = .ok results2
            ∧ run_pipeline
                (fun _ _ => AttemptRes.ok (mkResult "A" "2025-01-01T00:00:00Z"))
                envBoom 80 8 (some 120) 1 16 3 (some 300) 2 (3 / 2 : ℚ) 8
                (fun _ _ => 0) (fun _ _ => 0) false [] emptyDb [itemX]
              = .ok ([.analyze_pass 1 [itemX],
                      .save_batch results1 false [],
                      .analyze_pass 2 fails,
                      .save_batch results2 false []],
                     save_results_batch
                       (save_results_batch emptyDb results1 false [])
                       results2)) :=
  C5_two_pass (fun _ _ => AttemptRes.ok (mkResult "A" "2025-01-01T00:00:00Z"))
    envBoom 80 8 (some 120) 1 16 3 (some 300) 2 (3 / 2) 8 (fun _ _ => 0)
    (fun _ _ => 0) false [] emptyDb [itemX] (by simp) (Or.inl rfl)
    (Or.inl rfl)

theorem retry_le_total (a b : FailedNotamRow) :
    retry_le a b = true ∨ retry_le b a = true := by
  unfold retry_le
  cases ha : a.last_retry_at <;> cases hb : b.last_retry_at
  · exact Or.inl rfl
  · exact Or.inl rfl
  · exact Or.inr rfl
  · rename_i x y
    rcases le_total x y with hxy | hyx
    · exact Or.inl (by simpa using hxy)
    · exact Or.inr (by simpa using hyx)

theorem retry_le_trans (a b c : FailedNotamRow)
    (hab : retry_le a b = true) (hbc : retry_le b c = true) :
    retry_le a c = true := by
  unfold retry_le at *
  cases ha : a.last_retry_at <;> cases hb : b.last_retry_at <;>
    cases hc : c.last_retry_at <;>
    rw [ha, hb] at hab <;> rw [hb, hc] at hbc <;> simp_all
  exact le_trans hab hbc

theorem mem_insertRow (x : FailedNotamRow) :
    ∀ (l : List FailedNotamRow) (z : FailedNotamRow),
      z ∈ insertRow x l ↔ z = x ∨ z ∈ l := by
  intro l
  induction l with
  | nil => intro z; simp [insertRow]
  | cons y ys ih =>
    intro z
    unfold insertRow
    by_cases hc : retry_le x y = true
    · simp [hc]
    · simp only [hc, Bool.false_eq_true, if_false, List.mem_cons, ih z]
      tauto

theorem mem_sortRows : ∀ (l : List FailedNotamRow) (z : FailedNotamRow),
    z ∈ sortRows l ↔ z ∈ l := by
  intro l
  induction l with
  | nil => intro z; rfl
  | cons y ys ih =>
    intro z
    unfold sortRows
    rw [mem_insertRow y (sortRows ys) z, ih z, List.mem_cons]

theorem sorted_insertRow (x : FailedNotamRow) :
    ∀ (l : List FailedNotamRow),
      l.Pairwise (fun a b => retry_le a b = true) →
      (insertRow x l).Pairwise (fun a b => retry_le a b = true) := by
  intro l
  induction l with
  | nil => intro _; simp [insertRow]
  | cons y ys ih =>
    intro hp
    rw [List.pairwise_cons] at hp
    unfold insertRow
    by_cases hc : retry_le x y = true
    · rw [if_pos hc, List.pairwise_cons]
      refine ⟨?_, List.pairwise_cons.mpr hp⟩
      intro z hz
      rcases List.mem_cons.mp hz with rfl | hz2
      · exact hc
      · exact retry_le_trans x y z hc (hp.1 z hz2)
    · rw [if_neg hc, List.pairwise_cons]
      refine ⟨?_, ih hp.2⟩
      intro z hz
      rcases (mem_insertRow x ys z).mp hz with rfl | hz2
      · rcases retry_le_total z y with h1 | h2
        · exact absurd h1 hc
        · exact h2
      · exact hp.1 z hz2

theorem sorted_sortRows : ∀ (l : List FailedNotamRow),
    (sortRows l).Pairwise (fun a b => retry_le a b = true) := by
  intro l
  induction l with
  | nil => exact List.Pairwise.nil
  | cons y ys ih => exact sorted_insertRow y (sortRows ys) ih

/-- C6: `selectForRetry(limit)` (modelled from the spec as
`get_failed_notams_for_retry`) returns only rows with
`retry_count < max_retry_attempts`, at most `limit` of them, sorted oldest
`last_retry_at` first, and every returned row is at least as old as every
candidate left behind by the limit. -/
theorem C6_select_for_retry (maxA : Nat) (rows : List FailedNotamRow)
    (limit : Nat) :
    (∀ r ∈ get_failed_notams_for_retry maxA rows limit, r.retry_count < maxA)
    ∧ (get_failed_notams_for_retry maxA rows limit).length ≤ limit
    ∧ (get_failed_notams_for_retry maxA rows limit).Pairwise
        (fun a b => retry_le a b = true)
    ∧ ∀ x ∈ get_failed_notams_for_retry maxA rows limit,
        ∀ y ∈ (sortRows (rows.filter fun r => r.retry_count < maxA)).drop limit,
          retry_le x y = true := by
  refine ⟨?_, ?_, ?_, ?_⟩
  · intro r hr
    have h1 : r ∈ sortRows (rows.filter fun r => r.retry_count < maxA) :=
      List.mem_of_mem_take hr
    have h2 : r ∈ rows.filter fun r => r.retry_count < maxA :=
      (mem_sortRows _ r).mp h1
    have := List.mem_filter.mp h2
    simpa using this.2
  · rw [get_failed_notams_for_retry, List.length_take]
    exact min_le_left _ _
  · exact List.Pairwise.sublist (List.take_sublist _ _)
      (sorted_sortRows (rows.filter fun r => r.retry_count < maxA))
  · intro x hx y hy
    have hsorted := sorted_sortRows (rows.filter fun r => r.retry_count < maxA)
    rw [← List.take_append_drop limit
      (sortRows (rows.filter fun r => r.retry_count < maxA))] at hsorted
    exact (List.pairwise_append.mp hsorted).2.2 x hx y hy

/-- C6 witness: of two pending rows with `limit = 1`, the older
(`last_retry_at = 2`) is selected and its retry count is below the cap. -/
theorem C6_select_for_retry_witness :
    (⟨2, "B1", "m", "AAAA", none, "h2", none, 0, some 2⟩ : FailedNotamRow)
      ∈ get_failed_notams_for_retry 3
          [⟨1, "A1", "m", "AAAA", none, "h1", none, 1, some 5⟩,
           ⟨2, "B1", "m", "AAAA", none, "h2", none, 0, some 2⟩] 1
    ∧ (⟨2, "B1", "m", "AAAA", none, "h2", none, 0, some 2⟩
        : FailedNotamRow).retry_count < 3 :=
  ⟨by decide,
   (C6_select_for_retry 3
      [⟨1, "A1", "m", "AAAA", none, "h1", none, 1, some 5⟩,
       ⟨2, "B1", "m", "AAAA", none, "h2", none, 0, some 2⟩] 1).1
     ⟨2, "B1", "m", "AAAA", none, "h2", none, 0, some 2⟩ (by decide)⟩

/-- C9: the consumer's flush loop flushes the accumulated micro-batch at a
wake-up exactly when the buffer has reached `batch_size` or `batch_secs`
have elapsed since the last flush with a nonempty buffer (whichever comes
first); flushes lose no messages and preserve order; and in the 7-message
scenario (5 buffered before the first wake-up, 2 more within the same
2-second interval) there are exactly two flushes, `[1..5]` fired by the size
threshold (the interval had not elapsed) and `[6,7]` fired at the interval
boundary (the size threshold was not met). -/
theorem C9_micro_batch :
    (∀ (α : Type) (bs : Nat) (secs : ℚ) (st : FlushState α)
        (arrive : List α) (now2 : ℚ),
        ((flush_step bs secs st arrive now2).flushes.length
            = st.flushes.length + 1)
          ↔ (bs ≤ (st.msgs ++ arrive).length
             ∨ (secs ≤ now2 - st.last_flush ∧ st.msgs ++ arrive ≠ [])))
    ∧ (∀ (α : Type) (bs : Nat) (secs : ℚ) (arrivals : Nat → List α)
        (now : Nat → ℚ) (t : Nat),
        (flush_loop bs secs arrivals now t).flushes.flatten
            ++ (flush_loop bs secs arrivals now t).msgs
          = ((List.range t).map (fun i => arrivals (i + 1))).flatten)
    ∧ (flush_loop 5 2 arrivals7 halfSecTicks 5).flushes
        = [[1, 2, 3, 4, 5], [6, 7]]
    ∧ (5 ≤ ((flush_loop 5 2 arrivals7 halfSecTicks 0).msgs
          ++ arrivals7 1).length
       ∧ ¬((2 : ℚ) ≤ halfSecTicks 1
            - (flush_loop 5 2 arrivals7 halfSecTicks 0).last_flush))
    ∧ (¬(5 ≤ ((flush_loop 5 2 arrivals7 halfSecTicks 4).msgs
          ++ arrivals7 5).length)
       ∧ (2 : ℚ) ≤ halfSecTicks 5
            - (flush_loop 5 2 arrivals7 halfSecTicks 4).last_flush) := by
  refine ⟨?_, ?_,
    by norm_num [flush_loop, flush_step, arrivals7, halfSecTicks],
    by norm_num [flush_loop, flush_step, arrivals7, halfSecTicks],
    by norm_num [flush_loop, flush_step, arrivals7, halfSecTicks]⟩
  · intro α bs secs st arrive now2
    unfold flush_step
    by_cases hcond : (decide (bs ≤ (st.msgs ++ arrive).length)
        || (decide (secs ≤ now2 - st.last_flush)
            && !(st.msgs ++ arrive).isEmpty)) = true
    · rw [if_pos hcond]
      dsimp only
      constructor
      · intro _
        simp only [Bool.or_eq_true, Bool.and_eq_true, decide_eq_true_eq,
          Bool.not_eq_true', List.isEmpty_eq_false] at hcond
        exact hcond
      · intro _
        simp
    · rw [if_neg hcond]
      dsimp only
      constructor
      · intro habs
        omega
      · intro hor
        exfalso
        apply hcond
        simp only [Bool.or_eq_true, Bool.and_eq_true, decide_eq_true_eq,
          Bool.not_eq_true', List.isEmpty_eq_false]
        exact hor
  · intro α bs secs arrivals now t
    induction t with
    | zero => rfl
    | succ t ih =>
      rw [flush_loop]
      unfold flush_step
      by_cases hcond : (decide (bs ≤ ((flush_loop bs secs arrivals now t).msgs
            ++ arrivals (t + 1)).length)
          || (decide (secs ≤ now (t + 1)
              - (flush_loop bs secs arrivals now t).last_flush)
            && !((flush_loop bs secs arrivals now t).msgs
                  ++ arrivals (t + 1)).isEmpty)) = true
      · rw [if_pos hcond]
        dsimp only
        simp only [List.range_succ, List.map_append, List.map_cons,
          List.map_nil, List.flatten_append, List.flatten_cons,
          List.flatten_nil, List.append_nil]
        rw [← ih, List.append_assoc]
      · rw [if_neg hcond]
        dsimp only
        simp only [List.range_succ, List.map_append, List.map_cons,
          List.map_nil, List.flatten_append, List.flatten_cons,
          List.flatten_nil, List.append_nil]
        rw [← ih, List.append_assoc]
